import Mathlib

/-!
Verification of the JSGuard static-analysis pipeline: a shallow embedding of
the hand-written lexer (src/lexer.js), the recursive-descent parser and AST
(parser.js), and the rule-based analyzer with its formatter and summary
helpers (the module exporting analyzeCode, formatIssues, getAnalysisSummary).

Source strings are modelled as lists of characters; the JavaScript cursor
(input, position, line, column) is represented by the remaining input list
together with the line and column counters, which supports the same three
primitive operations the source uses (current character, lookahead, advance).
Loops in the source become structural recursion on the remaining input where
the loop consumes input on every iteration; the parser's mutually recursive
descent and the analyzer's tree walk take an explicit recursion budget
(a natural-number depth bound, decremented on every nested call) so that all
definitions compute by kernel reduction; budget exhaustion is a distinct
outcome and is proved or shown unreachable wherever a claim depends on it.
-/

namespace JSGuard

/-! ## Token model (src/lexer.js, TokenType and Token) -/

/-- The TokenType enumeration of the source, including the kinds the scanner
never produces on its own (WHITESPACE is only ever filtered). -/
inductive TokenType where
  | IDENTIFIER | NUMBER | STRING | BOOLEAN | NULL | UNDEFINED
  | KEYWORD
  | ASSIGNMENT | ARITHMETIC | COMPARISON | LOGICAL | UNARY
  | SEMICOLON | COMMA | DOT | COLON
  | LPAREN | RPAREN | LBRACE | RBRACE | LBRACKET | RBRACKET
  | NEWLINE | WHITESPACE | COMMENT | EOF | UNKNOWN
  deriving DecidableEq, Repr

/-- A token: kind, spelled text, and 1-based source position. -/
structure Token where
  type : TokenType
  value : String
  line : Nat
  column : Nat
  deriving DecidableEq, Repr

/-- The KEYWORDS set of the source (lexer.js lines 48-54): the full
JavaScript reserved-word list, not a reduced one. -/
def KEYWORDS : List String :=
  [("break"), ("case"), ("catch"), ("class"), ("const"), ("continue"),
   ("debugger"), ("default"), ("delete"), ("do"), ("else"), ("export"),
   ("extends"), ("finally"), ("for"), ("function"), ("if"), ("import"),
   ("in"), ("instanceof"), ("let"), ("new"), ("return"), ("super"),
   ("switch"), ("this"), ("throw"), ("try"), ("typeof"), ("var"),
   ("void"), ("while"), ("with"), ("yield"), ("async"), ("await"), ("of")]

/-! ## Character classes

The source classifies characters with JavaScript regular expressions; these
are the corresponding decidable character predicates. -/

/-- Double quote, single quote and backtick, written by code point. -/
def dquoteC : Char := Char.ofNat 34

def squoteC : Char := Char.ofNat 39

def bquoteC : Char := Char.ofNat 96

def lbraceC : Char := Char.ofNat 123

def rbraceC : Char := Char.ofNat 125

def bslashC : Char := '\\'

/-- The character class of the JavaScript whitespace regex: space, tab,
line feed, vertical tab, form feed, carriage return, and the Unicode
space characters it also matches. -/
def isJsSpace (c : Char) : Bool :=
  c = ' ' || c = '\t' || c = '\n' || c = Char.ofNat 11 || c = Char.ofNat 12 ||
  c = '\r' || c = Char.ofNat 160 || c = Char.ofNat 0x1680 ||
  (Char.ofNat 0x2000 ≤ c && c ≤ Char.ofNat 0x200a) ||
  c = Char.ofNat 0x2028 || c = Char.ofNat 0x2029 || c = Char.ofNat 0x202f ||
  c = Char.ofNat 0x205f || c = Char.ofNat 0x3000 || c = Char.ofNat 0xfeff

/-- The digit class of the source's number scanner. -/
def isDigitC (c : Char) : Bool := '0' ≤ c && c ≤ '9'

/-- The identifier start class of the scanner's dispatch. -/
def isIdentStart (c : Char) : Bool :=
  ('a' ≤ c && c ≤ 'z') || ('A' ≤ c && c ≤ 'Z') || c = '_' || c = '$'

/-- The identifier continuation class of readIdentifier. -/
def isIdentChar (c : Char) : Bool := isIdentStart c || isDigitC c

/-- The operator character class of the scanner's dispatch. -/
def isOperatorChar (c : Char) : Bool :=
  c = '+' || c = '-' || c = '*' || c = '/' || c = '%' || c = '=' ||
  c = '<' || c = '>' || c = '!' || c = '&' || c = '|' || c = '^' || c = '~'

/-! ## Lexer state and primitive cursor operations -/

/-- The lexer cursor: remaining input, current line, current column. -/
structure LexState where
  input : List Char
  line : Nat
  column : Nat
  deriving DecidableEq, Repr

/-- The line/column update of the source's advance: a newline bumps the line
and resets the column, anything else bumps the column. -/
def advLC (ch : Char) (l c : Nat) : Nat × Nat :=
  if ch = '\n' then (l + 1, 1) else (l, c + 1)

/-- advance: consume one character (no-op at end of input). -/
def advance : LexState → LexState
  | ⟨[], l, c⟩ => ⟨[], l, c⟩
  | ⟨ch :: rest, l, c⟩ => ⟨rest, (advLC ch l c).1, (advLC ch l c).2⟩

/-! ## Scanner loops

Each while-loop of the source consumes at least one character per iteration
and is rendered as structural recursion on the remaining input. -/

/-- skipWhitespace: skip whitespace characters other than newline. -/
def skipWs : List Char → Nat → Nat → LexState
  | [], l, c => ⟨[], l, c⟩
  | ch :: rest, l, c =>
    if isJsSpace ch && !(ch = '\n') then
      skipWs rest (advLC ch l c).1 (advLC ch l c).2
    else ⟨ch :: rest, l, c⟩

/-- The readIdentifier loop: gather identifier characters. -/
def identLoop : List Char → Nat → Nat → List Char × LexState
  | [], l, c => ([], ⟨[], l, c⟩)
  | ch :: rest, l, c =>
    if isIdentChar ch then
      let r := identLoop rest (advLC ch l c).1 (advLC ch l c).2
      (ch :: r.1, r.2)
    else ([], ⟨ch :: rest, l, c⟩)

/-- readIdentifier (lexer.js lines 132-156): scan an identifier-shaped
lexeme, then classify: true/false are BOOLEAN, null is NULL, undefined is
UNDEFINED, members of KEYWORDS are KEYWORD, all else IDENTIFIER. -/
def readIdentifier (s : LexState) : Token × LexState :=
  let startLine := s.line
  let startColumn := s.column
  let r := identLoop s.input s.line s.column
  let value : String := String.mk r.1
  let ty : TokenType := if KEYWORDS.contains value then .KEYWORD else .IDENTIFIER
  if value = ("true") || value = ("false") then
    (⟨.BOOLEAN, value, startLine, startColumn⟩, r.2)
  else if value = ("null") then
    (⟨.NULL, value, startLine, startColumn⟩, r.2)
  else if value = ("undefined") then
    (⟨.UNDEFINED, value, startLine, startColumn⟩, r.2)
  else
    (⟨ty, value, startLine, startColumn⟩, r.2)

/-- The main readNumber loop: digits and at most one decimal point; a second
point stops the scan without being consumed. -/
def numLoop : Bool → List Char → Nat → Nat → List Char × LexState
  | _, [], l, c => ([], ⟨[], l, c⟩)
  | hasDecimal, ch :: rest, l, c =>
    if isDigitC ch || ch = '.' then
      if ch = '.' && hasDecimal then ([], ⟨ch :: rest, l, c⟩)
      else
        let hd := if ch = '.' then true else hasDecimal
        let r := numLoop hd rest (advLC ch l c).1 (advLC ch l c).2
        (ch :: r.1, r.2)
    else ([], ⟨ch :: rest, l, c⟩)

/-- The digit run consumed after an exponent marker. -/
def digitsLoop : List Char → Nat → Nat → List Char × LexState
  | [], l, c => ([], ⟨[], l, c⟩)
  | ch :: rest, l, c =>
    if isDigitC ch then
      let r := digitsLoop rest (advLC ch l c).1 (advLC ch l c).2
      (ch :: r.1, r.2)
    else ([], ⟨ch :: rest, l, c⟩)

/-- readNumber (lexer.js lines 161-191): the main digit/decimal loop followed
by the optional scientific-notation suffix. -/
def readNumber (s : LexState) : Token × LexState :=
  let startLine := s.line
  let startColumn := s.column
  let r1 := numLoop false s.input s.line s.column
  match r1.2.input with
  | ch :: rest =>
    if ch = 'e' || ch = 'E' then
      let s2 : LexState := ⟨rest, (advLC ch r1.2.line r1.2.column).1, (advLC ch r1.2.line r1.2.column).2⟩
      match s2.input with
      | sg :: rest2 =>
        if sg = '+' || sg = '-' then
          let s3 : LexState := ⟨rest2, (advLC sg s2.line s2.column).1, (advLC sg s2.line s2.column).2⟩
          let r2 := digitsLoop s3.input s3.line s3.column
          (⟨.NUMBER, String.mk (r1.1 ++ [ch] ++ [sg] ++ r2.1), startLine, startColumn⟩, r2.2)
        else
          let r2 := digitsLoop s2.input s2.line s2.column
          (⟨.NUMBER, String.mk (r1.1 ++ [ch] ++ r2.1), startLine, startColumn⟩, r2.2)
      | [] =>
        (⟨.NUMBER, String.mk (r1.1 ++ [ch]), startLine, startColumn⟩, s2)
    else (⟨.NUMBER, String.mk r1.1, startLine, startColumn⟩, r1.2)
  | [] => (⟨.NUMBER, String.mk r1.1, startLine, startColumn⟩, r1.2)

/-- The readString loop: scan to the matching quote or end of input; a
backslash consumes the next character and appends the backslash together
with that character (lexer.js line 207: the backslash is re-added). -/
def strLoop (quote : Char) : List Char → Nat → Nat → List Char × LexState
  | [], l, c => ([], ⟨[], l, c⟩)
  | ch :: rest, l, c =>
    if ch = quote then ([], ⟨ch :: rest, l, c⟩)
    else if ch = bslashC then
      match rest with
      | [] => ([], ⟨[], (advLC ch l c).1, (advLC ch l c).2⟩)
      | d :: rest2 =>
        let l1 := (advLC ch l c).1
        let c1 := (advLC ch l c).2
        let r := strLoop quote rest2 (advLC d l1 c1).1 (advLC d l1 c1).2
        (bslashC :: d :: r.1, r.2)
    else
      let r := strLoop quote rest (advLC ch l c).1 (advLC ch l c).2
      (ch :: r.1, r.2)

/-- readString (lexer.js lines 196-221): position of the opening quote is
retained, the closing quote is consumed when present, and reaching end of
input still yields a STRING token. -/
def readString (quote : Char) (s : LexState) : Token × LexState :=
  let startLine := s.line
  let startColumn := s.column
  let s1 := advance s
  let r := strLoop quote s1.input s1.line s1.column
  let s2 := if r.2.input.head? = some quote then advance r.2 else r.2
  (⟨.STRING, String.mk r.1, startLine, startColumn⟩, s2)

/-- The trim applied to comment text, over the same whitespace class. -/
def jsTrim (l : List Char) : List Char :=
  ((l.dropWhile isJsSpace).reverse.dropWhile isJsSpace).reverse

/-- The single-line comment loop: scan to the end of the line. -/
def slcLoop : List Char → Nat → Nat → List Char × LexState
  | [], l, c => ([], ⟨[], l, c⟩)
  | ch :: rest, l, c =>
    if ch = '\n' then ([], ⟨ch :: rest, l, c⟩)
    else
      let r := slcLoop rest (advLC ch l c).1 (advLC ch l c).2
      (ch :: r.1, r.2)

/-- readSingleLineComment (lexer.js lines 226-241). -/
def readSingleLineComment (s : LexState) : Token × LexState :=
  let startLine := s.line
  let startColumn := s.column
  let s1 := advance (advance s)
  let r := slcLoop s1.input s1.line s1.column
  (⟨.COMMENT, String.mk (jsTrim r.1), startLine, startColumn⟩, r.2)

/-- The multi-line comment loop: scan to the star-slash terminator, which is
consumed, or to end of input. -/
def mlcLoop : List Char → Nat → Nat → List Char × LexState
  | [], l, c => ([], ⟨[], l, c⟩)
  | ch :: rest, l, c =>
    if ch = '*' && rest.head? = some '/' then
      let s1 : LexState := ⟨ch :: rest, l, c⟩
      ([], advance (advance s1))
    else
      let r := mlcLoop rest (advLC ch l c).1 (advLC ch l c).2
      (ch :: r.1, r.2)

/-- readMultiLineComment (lexer.js lines 246-266). -/
def readMultiLineComment (s : LexState) : Token × LexState :=
  let startLine := s.line
  let startColumn := s.column
  let s1 := advance (advance s)
  let r := mlcLoop s1.input s1.line s1.column
  (⟨.COMMENT, String.mk (jsTrim r.1), startLine, startColumn⟩, r.2)

/-- The three-character operator spellings (lexer.js line 282). -/
def threeCharOps : List String := [("==="), ("!=="), (">>>"), ("<<="), (">>=")]

/-- The two-character operator table (lexer.js lines 290-301). -/
def twoCharOps : List (String × TokenType) :=
  [(("=="), .COMPARISON), (("!="), .COMPARISON),
   (("<="), .COMPARISON), ((">="), .COMPARISON),
   (("&&"), .LOGICAL), (("||"), .LOGICAL),
   (("++"), .UNARY), (("--"), .UNARY),
   (("+="), .ASSIGNMENT), (("-="), .ASSIGNMENT),
   (("*="), .ASSIGNMENT), (("/="), .ASSIGNMENT),
   (("%="), .ASSIGNMENT), (("&="), .ASSIGNMENT),
   (("|="), .ASSIGNMENT), (("^="), .ASSIGNMENT),
   (("<<"), .ARITHMETIC), ((">>"), .ARITHMETIC),
   (("**"), .ARITHMETIC)]

/-- The single-character operator table (lexer.js lines 310-318). -/
def singleCharOps : List (Char × TokenType) :=
  [('+', .ARITHMETIC), ('-', .ARITHMETIC),
   ('*', .ARITHMETIC), ('/', .ARITHMETIC),
   ('%', .ARITHMETIC), ('=', .ASSIGNMENT),
   ('<', .COMPARISON), ('>', .COMPARISON),
   ('!', .UNARY), ('~', .UNARY),
   ('&', .ARITHMETIC), ('|', .ARITHMETIC),
   ('^', .ARITHMETIC)]

/-- readOperator (lexer.js lines 271-328): try the three-character spelling,
then the two-character table, then the single-character table, and fall back
to UNKNOWN; in the source the function is only ever invoked with an operator
character under the cursor, so the empty-input branch is unreachable. -/
def readOperator (s : LexState) : Token × LexState :=
  match s.input with
  | [] => (⟨.UNKNOWN, String.mk [], s.line, s.column⟩, s)
  | c :: rest =>
    let startLine := s.line
    let startColumn := s.column
    let two : String := String.mk (c :: rest.take 1)
    let three : String := String.mk ((c :: rest.take 1) ++ (rest.drop 1).take 1)
    if threeCharOps.contains three then
      (⟨.COMPARISON, three, startLine, startColumn⟩, advance (advance (advance s)))
    else
      match twoCharOps.lookup two with
      | some ty => (⟨ty, two, startLine, startColumn⟩, advance (advance s))
      | none =>
        match singleCharOps.lookup c with
        | some ty => (⟨ty, String.mk [c], startLine, startColumn⟩, advance s)
        | none => (⟨.UNKNOWN, String.mk [c], startLine, startColumn⟩, advance s)

/-- The punctuation table of the scanner dispatch. -/
def punctuation (c : Char) : Option TokenType :=
  if c = ';' then some .SEMICOLON
  else if c = ',' then some .COMMA
  else if c = '.' then some .DOT
  else if c = ':' then some .COLON
  else if c = '(' then some .LPAREN
  else if c = ')' then some .RPAREN
  else if c = lbraceC then some .LBRACE
  else if c = rbraceC then some .RBRACE
  else if c = '[' then some .LBRACKET
  else if c = ']' then some .RBRACKET
  else none

/-- The non-whitespace arm of nextToken's dispatch (lexer.js lines 345-400),
for a cursor standing on the character ch: newline, comments, strings,
numbers, identifiers, punctuation, operators, unknown — in source order. -/
def scanToken (ch : Char) (rest : List Char) (l c : Nat) : Token × LexState :=
  let s : LexState := ⟨ch :: rest, l, c⟩
  if ch = '\n' then (⟨.NEWLINE, ("\\n"), l, c⟩, advance s)
  else if ch = '/' && rest.head? = some '/' then readSingleLineComment s
  else if ch = '/' && rest.head? = some '*' then readMultiLineComment s
  else if ch = dquoteC || ch = squoteC || ch = bquoteC then readString ch s
  else if isDigitC ch then readNumber s
  else if isIdentStart ch then readIdentifier s
  else
    match punctuation ch with
    | some ty => (⟨ty, String.mk [ch], l, c⟩, advance s)
    | none =>
      if isOperatorChar ch then readOperator s
      else (⟨.UNKNOWN, String.mk [ch], l, c⟩, advance s)

/-- nextToken (lexer.js lines 333-404). The source's scan loop repeats only
through its whitespace branch, and skipWhitespace consumes every character
of that class, so the loop body runs at most twice; it is unrolled here:
skip leading space/tab/carriage-return once, then dispatch (or report EOF
at end of input). -/
def nextToken (s : LexState) : Token × LexState :=
  match s.input with
  | [] => (⟨.EOF, String.mk [], s.line, s.column⟩, s)
  | ch :: rest =>
    if ch = ' ' || ch = '\t' || ch = '\r' then
      let s1 := skipWs s.input s.line s.column
      match s1.input with
      | [] => (⟨.EOF, String.mk [], s1.line, s1.column⟩, s1)
      | ch1 :: rest1 => scanToken ch1 rest1 s1.line s1.column
    else scanToken ch rest s.line s.column

/-- The tokenize do-while loop, with an explicit step budget; one character
of input is consumed per emitted token, so a budget exceeding the input
length never runs out (proved below). -/
def tokenizeAux : Nat → LexState → Option (List Token)
  | 0, _ => none
  | fuel + 1, s =>
    let r := nextToken s
    if r.1.type = .EOF then some [r.1]
    else (tokenizeAux fuel r.2).map (r.1 :: ·)

/-- tokenize (lexer.js lines 409-419): scan the whole input into a token
list ending in EOF. -/
def tokenize (src : List Char) : List Token :=
  (tokenizeAux (src.length + 1) ⟨src, 1, 1⟩).getD []

/-! ## AST model (parser.js, NodeType and the node classes)

The NodeType enumeration lists tags for while-loops, for-loops and
parameters, but the source defines no node class carrying those tags: the
parser builds an IfStatement-shaped node for a while-loop and an
ExpressionStatement wrapper for a for-loop. The Node type below has one
constructor per node class of the source; the tag type keeps the full
enumeration. -/

/-- The NodeType string enumeration of the source. -/
inductive NType where
  | program | expressionStatement | variableDeclaration | functionDeclaration
  | returnStatement | ifStatement | whileStatement | forStatement
  | blockStatement | binaryExpression | unaryExpression | assignmentExpression
  | callExpression | memberExpression | identifier | literal
  | arrayExpression | objectExpression | variableDeclarator | property
  | parameter
  deriving DecidableEq, Repr

/-- A Literal's value as converted by parsePrimaryExpression: numbers keep
their raw spelling (the parseFloat conversion is not interpreted — no
analyzer rule inspects the numeric magnitude, only the JavaScript typeof,
which the constructor choice captures), strings stay strings, booleans and
null are converted. -/
inductive LitVal where
  | num (raw : String)
  | str (s : String)
  | bool (b : Bool)
  | null
  deriving DecidableEq, Repr

/-- The AST node classes of the source, one constructor per class, with the
fields in constructor order (the order object iteration visits them). -/
inductive Node where
  | program (body : List Node) (line column : Nat)
  | identifier (name : String) (line column : Nat)
  | literal (value : LitVal) (raw : String) (line column : Nat)
  | binaryExpression (operator : String) (left right : Node) (line column : Nat)
  | unaryExpression (operator : String) (argument : Node) (pfx : Bool) (line column : Nat)
  | assignmentExpression (operator : String) (left right : Node) (line column : Nat)
  | callExpression (callee : Node) (arguments : List Node) (line column : Nat)
  | memberExpression (object propertyN : Node) (computed : Bool) (line column : Nat)
  | variableDeclaration (kind : String) (declarations : List Node) (line column : Nat)
  | variableDeclarator (id : Node) (init : Option Node) (line column : Nat)
  | functionDeclaration (id : Node) (params : List Node) (body : Node) (line column : Nat)
  | blockStatement (body : List Node) (line column : Nat)
  | expressionStatement (expression : Node) (line column : Nat)
  | returnStatement (argument : Option Node) (line column : Nat)
  | ifStatement (test consequent : Node) (alternate : Option Node) (line column : Nat)
  | arrayExpression (elements : List Node) (line column : Nat)
  | objectExpression (properties : List Node) (line column : Nat)
  | property (key valueN : Node) (kind : String) (line column : Nat)

/-- The type tag each node class carries. No constructor maps to the
whileStatement, forStatement or parameter tags — the source has no class
assigning those NodeType strings. -/
def Node.ntype : Node → NType
  | .program .. => .program
  | .identifier .. => .identifier
  | .literal .. => .literal
  | .binaryExpression .. => .binaryExpression
  | .unaryExpression .. => .unaryExpression
  | .assignmentExpression .. => .assignmentExpression
  | .callExpression .. => .callExpression
  | .memberExpression .. => .memberExpression
  | .variableDeclaration .. => .variableDeclaration
  | .variableDeclarator .. => .variableDeclarator
  | .functionDeclaration .. => .functionDeclaration
  | .blockStatement .. => .blockStatement
  | .expressionStatement .. => .expressionStatement
  | .returnStatement .. => .returnStatement
  | .ifStatement .. => .ifStatement
  | .arrayExpression .. => .arrayExpression
  | .objectExpression .. => .objectExpression
  | .property .. => .property

/-- The line stamped on a node. -/
def Node.line : Node → Nat
  | .program _ l _ => l
  | .identifier _ l _ => l
  | .literal _ _ l _ => l
  | .binaryExpression _ _ _ l _ => l
  | .unaryExpression _ _ _ l _ => l
  | .assignmentExpression _ _ _ l _ => l
  | .callExpression _ _ l _ => l
  | .memberExpression _ _ _ l _ => l
  | .variableDeclaration _ _ l _ => l
  | .variableDeclarator _ _ l _ => l
  | .functionDeclaration _ _ _ l _ => l
  | .blockStatement _ l _ => l
  | .expressionStatement _ l _ => l
  | .returnStatement _ l _ => l
  | .ifStatement _ _ _ l _ => l
  | .arrayExpression _ l _ => l
  | .objectExpression _ l _ => l
  | .property _ _ _ l _ => l

/-- The column stamped on a node. -/
def Node.column : Node → Nat
  | .program _ _ c => c
  | .identifier _ _ c => c
  | .literal _ _ _ c => c
  | .binaryExpression _ _ _ _ c => c
  | .unaryExpression _ _ _ _ c => c
  | .assignmentExpression _ _ _ _ c => c
  | .callExpression _ _ _ c => c
  | .memberExpression _ _ _ _ c => c
  | .variableDeclaration _ _ _ c => c
  | .variableDeclarator _ _ _ c => c
  | .functionDeclaration _ _ _ _ c => c
  | .blockStatement _ _ c => c
  | .expressionStatement _ _ c => c
  | .returnStatement _ _ c => c
  | .ifStatement _ _ _ _ c => c
  | .arrayExpression _ _ c => c
  | .objectExpression _ _ c => c
  | .property _ _ _ _ c => c

/-! ## Parser state, exceptions and recovery -/

/-- Parser state: the remaining (already filtered) token stream and the list
of recorded error messages. The source indexes a fixed array with a
position; the suffix from that position is kept instead, which supports the
same operations (current token, advance). -/
structure PState where
  tokens : List Token
  errors : List String
  deriving DecidableEq, Repr

/-- currentToken: the token under the cursor, or the source's synthetic EOF
placeholder past the end. -/
def currentToken (st : PState) : Token :=
  match st.tokens with
  | [] => ⟨.EOF, String.mk [], 1, 1⟩
  | t :: _ => t

/-- advance: move past the current token (no-op at the end). -/
def pAdvance (st : PState) : PState :=
  { st with tokens := st.tokens.drop 1 }

/-- match: the current token has the given type and, when one is supplied,
the given text. -/
def pMatch (st : PState) (ty : TokenType) (val : Option String) : Bool :=
  (currentToken st).type = ty &&
    (match val with
     | none => true
     | some v => (currentToken st).value = v)

/-- The display name of a token type used in error messages. -/
def typeName : TokenType → String
  | .IDENTIFIER => ("IDENTIFIER")
  | .NUMBER => ("NUMBER")
  | .STRING => ("STRING")
  | .BOOLEAN => ("BOOLEAN")
  | .NULL => ("NULL")
  | .UNDEFINED => ("UNDEFINED")
  | .KEYWORD => ("KEYWORD")
  | .ASSIGNMENT => ("ASSIGNMENT")
  | .ARITHMETIC => ("ARITHMETIC")
  | .COMPARISON => ("COMPARISON")
  | .LOGICAL => ("LOGICAL")
  | .UNARY => ("UNARY")
  | .SEMICOLON => ("SEMICOLON")
  | .COMMA => ("COMMA")
  | .DOT => ("DOT")
  | .COLON => ("COLON")
  | .LPAREN => ("LPAREN")
  | .RPAREN => ("RPAREN")
  | .LBRACE => ("LBRACE")
  | .RBRACE => ("RBRACE")
  | .LBRACKET => ("LBRACKET")
  | .RBRACKET => ("RBRACKET")
  | .NEWLINE => ("NEWLINE")
  | .WHITESPACE => ("WHITESPACE")
  | .COMMENT => ("COMMENT")
  | .EOF => ("EOF")
  | .UNKNOWN => ("UNKNOWN")

/-- Outcome of a parsing function: success with a value, a thrown parse
error (the carried state keeps whatever diagnostics were recorded), or
exhaustion of the recursion budget (distinct, so that a concrete result
shown to be ok or err also witnesses termination). -/
inductive PRes (α : Type) where
  | ok (a : α) (st : PState)
  | err (st : PState)
  | out

/-- Sequencing that propagates thrown errors and budget exhaustion. -/
def pbind {α β : Type} : PRes α → (α → PState → PRes β) → PRes β
  | .ok a st, f => f a st
  | .err st, _ => .err st
  | .out, _ => .out

/-- consume (parser.js lines 300-312): take the expected token, or record a
diagnostic and throw. The throw of parsePrimaryExpression, by contrast,
records nothing. -/
def consume (ty : TokenType) (val : Option String) (st : PState) : PRes Token :=
  if pMatch st ty val then .ok (currentToken st) (pAdvance st)
  else
    let expected : String :=
      match val with
      | some v => typeName ty ++ ("(") ++ v ++ (")")
      | none => typeName ty
    let actual := currentToken st
    let message : String :=
      ("Expected ") ++ expected ++ (", got ") ++ typeName actual.type ++ ("(") ++
        actual.value ++ (") at line ") ++ toString actual.line ++ (":") ++
        toString actual.column
    .err { st with errors := st.errors ++ [message] }

/-- The statement keywords at which panic-mode recovery stops. -/
def syncKeywords : List String :=
  [("function"), ("var"), ("let"), ("const"), ("if"), ("while"), ("for"), ("return")]

/-- The scan loop of synchronize: stop after a semicolon (consumed), at a
statement keyword or at EOF. -/
def syncLoop : List Token → List Token
  | [] => []
  | t :: rest =>
    if t.type = .EOF then t :: rest
    else if t.type = .SEMICOLON then rest
    else if t.type = .KEYWORD && syncKeywords.contains t.value then t :: rest
    else syncLoop rest

/-- synchronize (parser.js lines 338-355): discard the offending token, then
scan to a recovery point. -/
def synchronize (st : PState) : PState :=
  { st with tokens := syncLoop (st.tokens.drop 1) }

/-- The balanced-parenthesis skip of parseForStatement, entered with one
open parenthesis outstanding. -/
def forSkip : List Token → Nat → List Token
  | ts, 0 => ts
  | [], _ + 1 => []
  | t :: rest, pc + 1 =>
    if t.type = .EOF then t :: rest
    else
      let pc1 := if t.type = .LPAREN then pc + 2 else pc + 1
      let pc2 := if t.type = .RPAREN then pc1 - 1 else pc1
      forSkip rest pc2

/-! ## Recursive descent (parser.js, JavaScriptParser)

One function per parsing method, plus one function per inner do-while or
while loop of a method. Every function takes the recursion budget as its
first argument and passes the decremented budget to every nested call, so
the whole block is structurally recursive on the budget. -/

mutual

/-- parseStatement (parser.js lines 360-387). -/
def parseStatement : Nat → PState → PRes Node
  | 0, _ => .out
  | fuel + 1, st =>
    let t := currentToken st
    if t.type = .KEYWORD && (t.value = ("var") || t.value = ("let") || t.value = ("const")) then
      parseVariableDeclaration fuel st
    else if t.type = .KEYWORD && t.value = ("function") then
      parseFunctionDeclaration fuel st
    else if t.type = .KEYWORD && t.value = ("return") then
      parseReturnStatement fuel st
    else if t.type = .KEYWORD && t.value = ("if") then
      parseIfStatement fuel st
    else if t.type = .KEYWORD && t.value = ("while") then
      parseWhileStatement fuel st
    else if t.type = .KEYWORD && t.value = ("for") then
      parseForStatement fuel st
    else if pMatch st .LBRACE none then
      parseBlockStatement fuel st
    else
      parseExpressionStatement fuel st

/-- parseVariableDeclaration (parser.js lines 392-424). -/
def parseVariableDeclaration : Nat → PState → PRes Node
  | 0, _ => .out
  | fuel + 1, st =>
    pbind (consume .KEYWORD none st) fun tok st1 =>
    pbind (varDeclLoop fuel [] st1) fun declarations st2 =>
    let st3 := if pMatch st2 .SEMICOLON none then pAdvance st2 else st2
    .ok (.variableDeclaration tok.value declarations tok.line tok.column) st3

/-- The declarator do-while loop of parseVariableDeclaration. -/
def varDeclLoop : Nat → List Node → PState → PRes (List Node)
  | 0, _, _ => .out
  | fuel + 1, acc, st =>
    pbind (consume .IDENTIFIER none st) fun idTok st1 =>
    let id : Node := .identifier idTok.value (currentToken st1).line (currentToken st1).column
    pbind
      (if pMatch st1 .ASSIGNMENT (some ("=")) then
        pbind (parseExpression fuel (pAdvance st1)) fun init st2 => .ok (some init) st2
      else .ok none st1)
      fun init st2 =>
    let acc1 := acc ++ [Node.variableDeclarator id init id.line id.column]
    if pMatch st2 .COMMA none then varDeclLoop fuel acc1 (pAdvance st2)
    else .ok acc1 st2

/-- parseFunctionDeclaration (parser.js lines 429-460). -/
def parseFunctionDeclaration : Nat → PState → PRes Node
  | 0, _ => .out
  | fuel + 1, st =>
    pbind (consume .KEYWORD (some ("function")) st) fun tok st1 =>
    pbind (consume .IDENTIFIER none st1) fun idTok st2 =>
    let id : Node := .identifier idTok.value (currentToken st2).line (currentToken st2).column
    pbind (consume .LPAREN none st2) fun _ st3 =>
    pbind (if pMatch st3 .RPAREN none then .ok [] st3 else funcParamsLoop fuel [] st3)
      fun params st4 =>
    pbind (consume .RPAREN none st4) fun _ st5 =>
    pbind (parseBlockStatement fuel st5) fun body st6 =>
    .ok (.functionDeclaration id params body tok.line tok.column) st6

/-- The parameter do-while loop of parseFunctionDeclaration. -/
def funcParamsLoop : Nat → List Node → PState → PRes (List Node)
  | 0, _, _ => .out
  | fuel + 1, acc, st =>
    pbind (consume .IDENTIFIER none st) fun pTok st1 =>
    let p : Node := .identifier pTok.value (currentToken st1).line (currentToken st1).column
    let acc1 := acc ++ [p]
    if pMatch st1 .COMMA none then funcParamsLoop fuel acc1 (pAdvance st1)
    else .ok acc1 st1

/-- parseBlockStatement (parser.js lines 465-478). -/
def parseBlockStatement : Nat → PState → PRes Node
  | 0, _ => .out
  | fuel + 1, st =>
    pbind (consume .LBRACE none st) fun tok st1 =>
    pbind (blockLoop fuel [] st1) fun body st2 =>
    pbind (consume .RBRACE none st2) fun _ st3 =>
    .ok (.blockStatement body tok.line tok.column) st3

/-- The statement loop of parseBlockStatement. -/
def blockLoop : Nat → List Node → PState → PRes (List Node)
  | 0, _, _ => .out
  | fuel + 1, acc, st =>
    if !(pMatch st .RBRACE none) && !(pMatch st .EOF none) then
      pbind (parseStatement fuel st) fun stmt st1 =>
      blockLoop fuel (acc ++ [stmt]) st1
    else .ok acc st

/-- parseReturnStatement (parser.js lines 483-496). -/
def parseReturnStatement : Nat → PState → PRes Node
  | 0, _ => .out
  | fuel + 1, st =>
    pbind (consume .KEYWORD (some ("return")) st) fun tok st1 =>
    pbind
      (if !(pMatch st1 .SEMICOLON none) && !(pMatch st1 .EOF none) then
        pbind (parseExpression fuel st1) fun a st2 => .ok (some a) st2
      else .ok none st1)
      fun argument st2 =>
    let st3 := if pMatch st2 .SEMICOLON none then pAdvance st2 else st2
    .ok (.returnStatement argument tok.line tok.column) st3

/-- parseIfStatement (parser.js lines 501-515). -/
def parseIfStatement : Nat → PState → PRes Node
  | 0, _ => .out
  | fuel + 1, st =>
    pbind (consume .KEYWORD (some ("if")) st) fun tok st1 =>
    pbind (consume .LPAREN none st1) fun _ st2 =>
    pbind (parseExpression fuel st2) fun test st3 =>
    pbind (consume .RPAREN none st3) fun _ st4 =>
    pbind (parseStatement fuel st4) fun consequent st5 =>
    pbind
      (if pMatch st5 .KEYWORD (some ("else")) then
        pbind (parseStatement fuel (pAdvance st5)) fun a st6 => .ok (some a) st6
      else .ok none st5)
      fun alternate st6 =>
    .ok (.ifStatement test consequent alternate tok.line tok.column) st6

/-- parseWhileStatement (parser.js lines 520-528): the source builds an
IfStatement-shaped node for the loop (its comment says the structure is
reused), so no while-tagged node enters the tree. -/
def parseWhileStatement : Nat → PState → PRes Node
  | 0, _ => .out
  | fuel + 1, st =>
    pbind (consume .KEYWORD (some ("while")) st) fun tok st1 =>
    pbind (consume .LPAREN none st1) fun _ st2 =>
    pbind (parseExpression fuel st2) fun test st3 =>
    pbind (consume .RPAREN none st3) fun _ st4 =>
    pbind (parseStatement fuel st4) fun body st5 =>
    .ok (.ifStatement test body none tok.line tok.column) st5

/-- parseForStatement (parser.js lines 533-547): the parenthesized header is
discarded by balanced-parenthesis skipping and the result is an
ExpressionStatement wrapping the body, so no for-tagged node enters the
tree. -/
def parseForStatement : Nat → PState → PRes Node
  | 0, _ => .out
  | fuel + 1, st =>
    pbind (consume .KEYWORD (some ("for")) st) fun tok st1 =>
    pbind (consume .LPAREN none st1) fun _ st2 =>
    let st3 : PState := { st2 with tokens := forSkip st2.tokens 1 }
    pbind (parseStatement fuel st3) fun body st4 =>
    .ok (.expressionStatement body tok.line tok.column) st4

/-- parseExpressionStatement (parser.js lines 552-560). -/
def parseExpressionStatement : Nat → PState → PRes Node
  | 0, _ => .out
  | fuel + 1, st =>
    pbind (parseExpression fuel st) fun expr st1 =>
    let st2 := if pMatch st1 .SEMICOLON none then pAdvance st1 else st1
    .ok (.expressionStatement expr expr.line expr.column) st2

/-- parseExpression (parser.js lines 565-567). -/
def parseExpression : Nat → PState → PRes Node
  | 0, _ => .out
  | fuel + 1, st => parseAssignmentExpression fuel st

/-- parseAssignmentExpression (parser.js lines 572-583): right-associative,
triggered by any ASSIGNMENT-typed operator token. -/
def parseAssignmentExpression : Nat → PState → PRes Node
  | 0, _ => .out
  | fuel + 1, st =>
    pbind (parseLogicalOrExpression fuel st) fun left st1 =>
    if (currentToken st1).type = .ASSIGNMENT then
      let op := (currentToken st1).value
      pbind (parseExpression fuel (pAdvance st1)) fun right st2 =>
      .ok (.assignmentExpression op left right left.line left.column) st2
    else .ok left st1

/-- parseLogicalOrExpression (parser.js lines 588-599). -/
def parseLogicalOrExpression : Nat → PState → PRes Node
  | 0, _ => .out
  | fuel + 1, st =>
    pbind (parseLogicalAndExpression fuel st) fun left st1 =>
    lorLoop fuel left st1

/-- The or-operator loop of parseLogicalOrExpression. -/
def lorLoop : Nat → Node → PState → PRes Node
  | 0, _, _ => .out
  | fuel + 1, left, st =>
    if pMatch st .LOGICAL (some ("||")) then
      let op := (currentToken st).value
      pbind (parseLogicalAndExpression fuel (pAdvance st)) fun right st1 =>
      lorLoop fuel (.binaryExpression op left right left.line left.column) st1
    else .ok left st

/-- parseLogicalAndExpression (parser.js lines 604-615). -/
def parseLogicalAndExpression : Nat → PState → PRes Node
  | 0, _ => .out
  | fuel + 1, st =>
    pbind (parseEqualityExpression fuel st) fun left st1 =>
    landLoop fuel left st1

/-- The and-operator loop of parseLogicalAndExpression. -/
def landLoop : Nat → Node → PState → PRes Node
  | 0, _, _ => .out
  | fuel + 1, left, st =>
    if pMatch st .LOGICAL (some ("&&")) then
      let op := (currentToken st).value
      pbind (parseEqualityExpression fuel (pAdvance st)) fun right st1 =>
      landLoop fuel (.binaryExpression op left right left.line left.column) st1
    else .ok left st

/-- parseEqualityExpression (parser.js lines 620-632). -/
def parseEqualityExpression : Nat → PState → PRes Node
  | 0, _ => .out
  | fuel + 1, st =>
    pbind (parseRelationalExpression fuel st) fun left st1 =>
    eqLoop fuel left st1

/-- The equality-operator loop of parseEqualityExpression. -/
def eqLoop : Nat → Node → PState → PRes Node
  | 0, _, _ => .out
  | fuel + 1, left, st =>
    if (currentToken st).type = .COMPARISON &&
        [("=="), ("!="), ("==="), ("!==")].contains (currentToken st).value then
      let op := (currentToken st).value
      pbind (parseRelationalExpression fuel (pAdvance st)) fun right st1 =>
      eqLoop fuel (.binaryExpression op left right left.line left.column) st1
    else .ok left st

/-- parseRelationalExpression (parser.js lines 637-649). -/
def parseRelationalExpression : Nat → PState → PRes Node
  | 0, _ => .out
  | fuel + 1, st =>
    pbind (parseAdditiveExpression fuel st) fun left st1 =>
    relLoop fuel left st1

/-- The relational-operator loop of parseRelationalExpression. -/
def relLoop : Nat → Node → PState → PRes Node
  | 0, _, _ => .out
  | fuel + 1, left, st =>
    if (currentToken st).type = .COMPARISON &&
        [("<"), (">"), ("<="), (">=")].contains (currentToken st).value then
      let op := (currentToken st).value
      pbind (parseAdditiveExpression fuel (pAdvance st)) fun right st1 =>
      relLoop fuel (.binaryExpression op left right left.line left.column) st1
    else .ok left st

/-- parseAdditiveExpression (parser.js lines 654-666). -/
def parseAdditiveExpression : Nat → PState → PRes Node
  | 0, _ => .out
  | fuel + 1, st =>
    pbind (parseMultiplicativeExpression fuel st) fun left st1 =>
    addLoop fuel left st1

/-- The additive-operator loop of parseAdditiveExpression. -/
def addLoop : Nat → Node → PState → PRes Node
  | 0, _, _ => .out
  | fuel + 1, left, st =>
    if (currentToken st).type = .ARITHMETIC &&
        [("+"), ("-")].contains (currentToken st).value then
      let op := (currentToken st).value
      pbind (parseMultiplicativeExpression fuel (pAdvance st)) fun right st1 =>
      addLoop fuel (.binaryExpression op left right left.line left.column) st1
    else .ok left st

/-- parseMultiplicativeExpression (parser.js lines 671-683). -/
def parseMultiplicativeExpression : Nat → PState → PRes Node
  | 0, _ => .out
  | fuel + 1, st =>
    pbind (parseUnaryExpression fuel st) fun left st1 =>
    mulLoop fuel left st1

/-- The multiplicative-operator loop of parseMultiplicativeExpression. -/
def mulLoop : Nat → Node → PState → PRes Node
  | 0, _, _ => .out
  | fuel + 1, left, st =>
    if (currentToken st).type = .ARITHMETIC &&
        [("*"), ("/"), ("%")].contains (currentToken st).value then
      let op := (currentToken st).value
      pbind (parseUnaryExpression fuel (pAdvance st)) fun right st1 =>
      mulLoop fuel (.binaryExpression op left right left.line left.column) st1
    else .ok left st

/-- parseUnaryExpression (parser.js lines 688-698). -/
def parseUnaryExpression : Nat → PState → PRes Node
  | 0, _ => .out
  | fuel + 1, st =>
    if (currentToken st).type = .UNARY then
      let tok := currentToken st
      pbind (parseUnaryExpression fuel (pAdvance st)) fun argument st1 =>
      .ok (.unaryExpression tok.value argument true tok.line tok.column) st1
    else parsePostfixExpression fuel st

/-- parsePostfixExpression (parser.js lines 703-743). -/
def parsePostfixExpression : Nat → PState → PRes Node
  | 0, _ => .out
  | fuel + 1, st =>
    pbind (parsePrimaryExpression fuel st) fun left st1 =>
    postfixLoop fuel left st1

/-- The member/index/call suffix loop of parsePostfixExpression. -/
def postfixLoop : Nat → Node → PState → PRes Node
  | 0, _, _ => .out
  | fuel + 1, left, st =>
    if pMatch st .DOT none then
      pbind (consume .IDENTIFIER none (pAdvance st)) fun propTok st1 =>
      let propertyN : Node :=
        .identifier propTok.value (currentToken st1).line (currentToken st1).column
      postfixLoop fuel (.memberExpression left propertyN false left.line left.column) st1
    else if pMatch st .LBRACKET none then
      pbind (parseExpression fuel (pAdvance st)) fun propertyN st1 =>
      pbind (consume .RBRACKET none st1) fun _ st2 =>
      postfixLoop fuel (.memberExpression left propertyN true left.line left.column) st2
    else if pMatch st .LPAREN none then
      let st1 := pAdvance st
      pbind (if pMatch st1 .RPAREN none then .ok [] st1 else argsLoop fuel [] st1)
        fun args st2 =>
      pbind (consume .RPAREN none st2) fun _ st3 =>
      postfixLoop fuel (.callExpression left args left.line left.column) st3
    else .ok left st

/-- The argument do-while loop of the call suffix. -/
def argsLoop : Nat → List Node → PState → PRes (List Node)
  | 0, _, _ => .out
  | fuel + 1, acc, st =>
    pbind (parseExpression fuel st) fun e st1 =>
    let acc1 := acc ++ [e]
    if pMatch st1 .COMMA none then argsLoop fuel acc1 (pAdvance st1)
    else .ok acc1 st1

/-- parsePrimaryExpression (parser.js lines 748-788): identifiers, literals,
parenthesized expressions, arrays and objects; anything else throws without
recording a diagnostic (the source throws a bare Error there). -/
def parsePrimaryExpression : Nat → PState → PRes Node
  | 0, _ => .out
  | fuel + 1, st =>
    let tok := currentToken st
    if tok.type = .IDENTIFIER then
      .ok (.identifier tok.value tok.line tok.column) (pAdvance st)
    else if tok.type = .NUMBER || tok.type = .STRING || tok.type = .BOOLEAN ||
        tok.type = .NULL then
      let value : LitVal :=
        if tok.type = .NUMBER then .num tok.value
        else if tok.type = .BOOLEAN then .bool (tok.value = ("true"))
        else if tok.type = .NULL then .null
        else .str tok.value
      .ok (.literal value tok.value tok.line tok.column) (pAdvance st)
    else if pMatch st .LPAREN none then
      pbind (parseExpression fuel (pAdvance st)) fun expr st1 =>
      pbind (consume .RPAREN none st1) fun _ st2 =>
      .ok expr st2
    else if pMatch st .LBRACKET none then
      parseArrayExpression fuel st
    else if pMatch st .LBRACE none then
      parseObjectExpression fuel st
    else .err st

/-- parseArrayExpression (parser.js lines 793-810). -/
def parseArrayExpression : Nat → PState → PRes Node
  | 0, _ => .out
  | fuel + 1, st =>
    pbind (consume .LBRACKET none st) fun tok st1 =>
    pbind (if pMatch st1 .RBRACKET none then .ok [] st1 else arrayLoop fuel [] st1)
      fun elements st2 =>
    pbind (consume .RBRACKET none st2) fun _ st3 =>
    .ok (.arrayExpression elements tok.line tok.column) st3

/-- The element do-while loop of parseArrayExpression. -/
def arrayLoop : Nat → List Node → PState → PRes (List Node)
  | 0, _, _ => .out
  | fuel + 1, acc, st =>
    pbind (parseExpression fuel st) fun e st1 =>
    let acc1 := acc ++ [e]
    if pMatch st1 .COMMA none then arrayLoop fuel acc1 (pAdvance st1)
    else .ok acc1 st1

/-- parseObjectExpression (parser.js lines 815-849). -/
def parseObjectExpression : Nat → PState → PRes Node
  | 0, _ => .out
  | fuel + 1, st =>
    pbind (consume .LBRACE none st) fun tok st1 =>
    pbind (if pMatch st1 .RBRACE none then .ok [] st1 else objectLoop fuel [] st1)
      fun properties st2 =>
    pbind (consume .RBRACE none st2) fun _ st3 =>
    .ok (.objectExpression properties tok.line tok.column) st3

/-- The property do-while loop of parseObjectExpression; a key that is
neither an identifier nor a string throws without recording (a bare throw
in the source). -/
def objectLoop : Nat → List Node → PState → PRes (List Node)
  | 0, _, _ => .out
  | fuel + 1, acc, st =>
    pbind
      (if pMatch st .IDENTIFIER none then
        .ok (Node.identifier (currentToken st).value (currentToken st).line
          (currentToken st).column) (pAdvance st)
      else if pMatch st .STRING none then
        .ok (Node.literal (.str (currentToken st).value) (currentToken st).value
          (currentToken st).line (currentToken st).column) (pAdvance st)
      else .err st)
      fun key st1 =>
    pbind (consume .COLON none st1) fun _ st2 =>
    pbind (parseExpression fuel st2) fun valueN st3 =>
    let acc1 := acc ++ [Node.property key valueN ("init") key.line key.column]
    if pMatch st3 .COMMA none then objectLoop fuel acc1 (pAdvance st3)
    else .ok acc1 st3

end

/-- The parse loop of parse() (parser.js lines 317-333): parse statements up
to EOF, catching any thrown statement error and synchronizing; every parsed
statement is appended (no parsing method returns a null statement). -/
def parseProgramLoop : Nat → List Node → PState → PRes Node
  | 0, _, _ => .out
  | fuel + 1, body, st =>
    if pMatch st .EOF none then .ok (.program body 1 1) st
    else
      match parseStatement fuel st with
      | .ok stmt st1 => parseProgramLoop fuel (body ++ [stmt]) st1
      | .err st1 => parseProgramLoop fuel body (synchronize st1)
      | .out => .out

/-- The JavaScriptParser constructor filter plus parse(): newline and
comment tokens are removed before parsing begins. The recursion budget is
proportional to the token count; every nested parsing call strictly
descends either in remaining tokens or in grammar level, so this budget is
ample, and the results computed below are all of the ok form, which
witnesses that the budget was not exhausted. -/
def parseTokens (tokens : List Token) : PRes Node :=
  let filtered := tokens.filter (fun t => !(t.type = .NEWLINE) && !(t.type = .COMMENT))
  parseProgramLoop (32 * (filtered.length + 1)) [] ⟨filtered, []⟩

/-- parseJavaScript (parser.js lines 855-860): tokenize, then parse. -/
def parseJS (src : List Char) : PRes Node :=
  parseTokens (tokenize src)

/-! ## Analyzer (the module defining analyzeCode)

walkNode visits the object fields of a node with the for-in loop, skipping
the type, line and column metadata and any field that is neither a node nor
an array of nodes; object fields are visited in the insertion order of the
class constructors, which is the constructor field order below. -/

/-- An issue record: category, severity, message and position. -/
structure Issue where
  type : String
  severity : String
  message : String
  line : Nat
  column : Nat
  deriving DecidableEq, Repr

/-- The node-valued children the for-in loop of walkNode visits, in field
order; primitive fields (strings, booleans, literal values) and absent
optional fields are skipped by its object test. -/
def walkChildren : Node → List Node
  | .program body _ _ => body
  | .identifier _ _ _ => []
  | .literal _ _ _ _ => []
  | .binaryExpression _ left right _ _ => [left, right]
  | .unaryExpression _ argument _ _ _ => [argument]
  | .assignmentExpression _ left right _ _ => [left, right]
  | .callExpression callee arguments _ _ => callee :: arguments
  | .memberExpression object propertyN _ _ _ => [object, propertyN]
  | .variableDeclaration _ declarations _ _ => declarations
  | .variableDeclarator id init _ _ => id :: init.toList
  | .functionDeclaration id params body _ _ => id :: params ++ [body]
  | .blockStatement body _ _ => body
  | .expressionStatement expression _ _ => [expression]
  | .returnStatement argument _ _ => argument.toList
  | .ifStatement test consequent alternate _ _ => test :: consequent :: alternate.toList
  | .arrayExpression elements _ _ => elements
  | .objectExpression properties _ _ => properties
  | .property key valueN _ _ _ => [key, valueN]

/-- isInsideLoop of the source: the walk passes only the immediate parent
node and AST nodes carry no parent field, so the loop inspects the type tag
of that parent and then stops (current.parent is undefined after one step).
Only a while- or for-tagged parent would satisfy it. -/
def isInsideLoop (parentTy : Option NType) : Bool :=
  match parentTy with
  | some t => t = .whileStatement || t = .forStatement
  | none => false

/-- findUsage of isVariableUsed: a node is a usage when it is an identifier
with the sought name, or some walked child contains a usage. The budget
bounds the recursion depth. -/
def findUsageF : Nat → String → Node → Bool
  | 0, _, _ => false
  | fuel + 1, varName, n =>
    (match n with
     | .identifier nm _ _ => nm = varName
     | _ => false) ||
    (walkChildren n).any (findUsageF fuel varName)

/-- countStatements of the source: the statements of a block, counting the
statements of directly nested blocks as well; non-block arguments count
zero (the source's guard on the body field). -/
def countStatementsF : Nat → Node → Nat
  | 0, _ => 0
  | fuel + 1, n =>
    match n with
    | .blockStatement body _ _ =>
      (body.map fun stmt =>
        1 + (match stmt with
             | .blockStatement _ _ _ => countStatementsF fuel stmt
             | _ => 0)).sum
    | _ => 0

/-- The implicit-global rule: any assignment whose left side is a bare
identifier. -/
def ruleImplicitGlobal (n : Node) : List Issue :=
  match n with
  | .assignmentExpression _ (.identifier nm _ _) _ line column =>
    [⟨("error"), ("high"), ("Potential implicit global variable: ") ++ nm, line, column⟩]
  | _ => []

/-- The loose-equality rule. -/
def ruleEquality (n : Node) : List Issue :=
  match n with
  | .binaryExpression op _ _ line column =>
    if op = ("==") || op = ("!=") then
      [⟨("error"), ("medium"),
        ("Unsafe equality comparison using ") ++ op ++ (" instead of ") ++ op ++ ("="),
        line, column⟩]
    else []
  | _ => []

/-- The innerHTML/outerHTML rule. -/
def ruleXss (n : Node) : List Issue :=
  match n with
  | .memberExpression _ (.identifier propertyName _ _) _ line column =>
    if [("innerHTML"), ("outerHTML")].contains propertyName then
      [⟨("security"), ("high"),
        ("Potential XSS vulnerability using ") ++ propertyName, line, column⟩]
    else []
  | _ => []

/-- The dangerous-call rules: eval-family calls, and string-argument timer
calls, both on calls whose callee is a bare identifier. -/
def ruleDangerousCall (n : Node) : List Issue :=
  match n with
  | .callExpression (.identifier calleeName _ _) args line column =>
    (if [("eval"), ("Function"), ("execScript")].contains calleeName then
      [⟨("security"), ("high"),
        ("Unsafe use of ") ++ calleeName ++ ("() - can execute arbitrary code"),
        line, column⟩]
    else []) ++
    (if [("setTimeout"), ("setInterval")].contains calleeName &&
        (match args.head? with
         | some (.literal (.str _) _ _ _) => true
         | _ => false) then
      [⟨("security"), ("high"),
        ("Unsafe use of ") ++ calleeName ++ (" with string argument - similar to eval()"),
        line, column⟩]
    else [])
  | _ => []

/-- The document.write rule as the source states it: the callee must be a
member expression whose object is itself a member expression rooted at the
identifier document, with property name write or writeln — a three-level
chain. -/
def ruleDocumentWrite (n : Node) : List Issue :=
  match n with
  | .callExpression
      (.memberExpression (.memberExpression (.identifier obj _ _) _ _ _ _)
        (.identifier propertyName _ _) _ _ _) _ line column =>
    if obj = ("document") && [("write"), ("writeln")].contains propertyName then
      [⟨("security"), ("high"),
        ("Insecure use of document.") ++ propertyName ++ ("() - can enable XSS attacks"),
        line, column⟩]
    else []
  | _ => []

/-- Prefix test on strings, by characters. -/
def listPrefixOf : List Char → List Char → Bool
  | [], _ => true
  | _ :: _, [] => false
  | a :: as, b :: bs => a = b && listPrefixOf as bs

/-- The insecure-HTTP rule: a call of an open member with a second argument
that is a string literal starting with the plain-HTTP scheme. -/
def ruleHttp (n : Node) : List Issue :=
  match n with
  | .callExpression (.memberExpression _ (.identifier propertyName _ _) _ _ _)
      args line column =>
    if propertyName = ("open") && args.length ≥ 2 &&
        (match args.get? 1 with
         | some (.literal (.str s) _ _ _) => listPrefixOf (("http://").toList) s.toList
         | _ => false) then
      [⟨("security"), ("medium"), ("Using insecure HTTP protocol instead of HTTPS"),
        line, column⟩]
    else []
  | _ => []

/-- The var-keyword rule. -/
def ruleVar (n : Node) : List Issue :=
  match n with
  | .variableDeclaration kind _ line column =>
    if kind = ("var") then
      [⟨("style"), ("medium"),
        ("Use of 'var' keyword - consider using 'let' or 'const' instead for better scoping"),
        line, column⟩]
    else []
  | _ => []

/-- The function-size rule: more than thirty statements in the body
(counting nested blocks). The source's guard demands a body with a body
field, which for parser output is exactly a block statement. -/
def ruleComplexity (fuel : Nat) (n : Node) : List Issue :=
  match n with
  | .functionDeclaration _ _ body line column =>
    match body with
    | .blockStatement _ _ _ =>
      let statementCount := countStatementsF fuel body
      if statementCount > 30 then
        [⟨("complexity"), ("medium"),
          ("Function is too large (") ++ toString statementCount ++
            (" statements) - consider refactoring for better maintainability"),
          line, column⟩]
      else []
    | _ => []
  | _ => []

/-- The in-loop string-concatenation rule. -/
def ruleConcat (parentTy : Option NType) (n : Node) : List Issue :=
  match n with
  | .assignmentExpression op _ right line column =>
    if op = ("+=") &&
        (match right with
         | .literal (.str _) _ _ _ => true
         | _ => false) &&
        isInsideLoop parentTy then
      [⟨("performance"), ("medium"),
        ("Inefficient string concatenation in loop - consider using array.join() instead"),
        line, column⟩]
    else []
  | _ => []

/-- The unused-variable rule: a declarator whose bound name has no
identifier occurrence found anywhere in the whole tree. -/
def ruleUnused (fuel : Nat) (ast : Node) (n : Node) : List Issue :=
  match n with
  | .variableDeclarator (.identifier nm _ _) _ line column =>
    if !(findUsageF fuel nm ast) then
      [⟨("performance"), ("low"), ("Unused variable: ") ++ nm, line, column⟩]
    else []
  | _ => []

/-- The issues walkNode pushes at one visited node, in the source's rule
order. -/
def nodeIssues (fuel : Nat) (ast : Node) (parentTy : Option NType) (n : Node) :
    List Issue :=
  ruleImplicitGlobal n ++ ruleEquality n ++ ruleXss n ++ ruleDangerousCall n ++
  ruleDocumentWrite n ++ ruleHttp n ++ ruleVar n ++ ruleComplexity fuel n ++
  ruleConcat parentTy n ++ ruleUnused fuel ast n

/-- The recursive walk of walkNode: issues at the node, then the issues of
its children in order, each child seeing this node as its parent. The
budget bounds the tree depth. -/
def walkF (ast : Node) : Nat → Option NType → Node → List Issue
  | 0, _, _ => []
  | fuel + 1, parentTy, n =>
    nodeIssues fuel ast parentTy n ++
      (walkChildren n).flatMap (walkF ast fuel (some n.ntype))

/-- analyzeCode: parse, then walk from the root with no parent. The
budget is proportional to the source length, which bounds the depth of any
tree the parser can produce from it; parse() never throws (statement errors
are caught inside the loop), and on budget exhaustion the source's
falsy-ast guard returns the empty list. -/
def analyzeCode (src : List Char) : List Issue :=
  match parseJS src with
  | .ok ast _ => walkF ast (32 * (src.length + 1)) none ast
  | .err _ => []
  | .out => []

/-! ## Formatter and summary (formatIssues, getAnalysisSummary) -/

/-- Uppercasing by characters, as toUpperCase does for these ASCII
severities. -/
def toUpperString (s : String) : String :=
  String.mk (s.toList.map Char.toUpper)

/-- The per-issue line of formatIssues: the location suffix is attached only
when both coordinates are truthy, that is nonzero. -/
def formatIssue (issue : Issue) : String :=
  let location : String :=
    if !(issue.line = 0) && !(issue.column = 0) then
      (" at line ") ++ toString issue.line ++ (", column ") ++ toString issue.column
    else ("")
  ("[") ++ toUpperString issue.severity ++ ("] ") ++ issue.type ++ (": ") ++
    issue.message ++ location

/-- formatIssues: a fixed sentence for an empty list, otherwise the per-issue
lines joined with newlines. -/
def formatIssues (issues : List Issue) : String :=
  if issues.length = 0 then ("No issues detected.")
  else String.intercalate ("\n") (issues.map formatIssue)

/-- The summary record of getAnalysisSummary. -/
structure Summary where
  total : Nat
  security : Nat
  performance : Nat
  style : Nat
  complexity : Nat
  error : Nat
  high : Nat
  medium : Nat
  low : Nat
  deriving DecidableEq, Repr

/-- getAnalysisSummary: the total and the counts of each category and each
severity. -/
def getAnalysisSummary (issues : List Issue) : Summary where
  total := issues.length
  security := (issues.filter fun i => i.type = ("security")).length
  performance := (issues.filter fun i => i.type = ("performance")).length
  style := (issues.filter fun i => i.type = ("style")).length
  complexity := (issues.filter fun i => i.type = ("complexity")).length
  error := (issues.filter fun i => i.type = ("error")).length
  high := (issues.filter fun i => i.severity = ("high")).length
  medium := (issues.filter fun i => i.severity = ("medium")).length
  low := (issues.filter fun i => i.severity = ("low")).length

/-! ## Observations used to state concrete parsing facts -/

/-- The recorded parser error list of a completed parse (none only on budget
exhaustion, which never occurs for the inputs below). -/
def parseErrors (src : List Char) : Option (List String) :=
  match parseJS src with
  | .ok _ st => some st.errors
  | .err st => some st.errors
  | .out => none

/-- The top-level variable declarations of a completed parse: for each one,
its kind and the names its declarators bind. -/
def topDeclInfo (src : List Char) : Option (List (String × List String)) :=
  match parseJS src with
  | .ok (.program body _ _) _ =>
    some (body.filterMap fun n =>
      match n with
      | .variableDeclaration kind decls _ _ =>
        some (kind, decls.filterMap fun d =>
          match d with
          | .variableDeclarator (.identifier nm _ _) _ _ _ => some nm
          | _ => none)
      | _ => none)
  | _ => none

/-- Concrete inputs referenced by the claims. The braces and quotes are
given by code point. -/
def srcDocWrite : List Char := ("document.write(x)").toList

def srcFooWrite : List Char := ("foo.write(x)").toList

def srcDocBodyWrite : List Char := ("document.body.write(x)").toList

def srcWhileConcat : List Char :=
  ("while (a) ").toList ++ [lbraceC] ++ (" s += ").toList ++
    [dquoteC, 'x', dquoteC] ++ ("; ").toList ++ [rbraceC]

def srcForConcat : List Char :=
  ("for (i = 0; i < 9; i = i + 1) ").toList ++ [lbraceC] ++ (" s += ").toList ++
    [dquoteC, 'x', dquoteC] ++ ("; ").toList ++ [rbraceC]

def srcRecovery : List Char := ("let x = ; let y = 2;").toList

/-! ## Lexer totality: auxiliary length and progress lemmas -/

theorem advance_input_le (s : LexState) : (advance s).input.length ≤ s.input.length := by
  cases s with
  | mk input line column =>
    cases input with
    | nil => simp [advance]
    | cons ch rest => simp [advance]

theorem advance_cons (ch : Char) (rest : List Char) (l c : Nat) :
    (advance ⟨ch :: rest, l, c⟩).input = rest := by
  simp [advance]

theorem skipWs_input_le (inp : List Char) (l c : Nat) :
    (skipWs inp l c).input.length ≤ inp.length := by
  induction inp generalizing l c with
  | nil => simp [skipWs]
  | cons ch rest ih =>
    simp only [skipWs]
    split
    · exact le_trans (ih _ _) (Nat.le_succ _)
    · simp

theorem skipWs_head (inp : List Char) (l c : Nat) (ch : Char) (rest : List Char)
    (h : (skipWs inp l c).input = ch :: rest) :
    (isJsSpace ch && !(ch = '\n')) = false := by
  induction inp generalizing l c with
  | nil => simp [skipWs] at h
  | cons a as ih =>
    simp only [skipWs] at h
    split at h
    · exact ih _ _ h
    · next hcond =>
      simp at h
      obtain ⟨rfl, -⟩ := h
      simpa using hcond

theorem identLoop_input_le (inp : List Char) (l c : Nat) :
    (identLoop inp l c).2.input.length ≤ inp.length := by
  induction inp generalizing l c with
  | nil => simp [identLoop]
  | cons ch rest ih =>
    simp only [identLoop]
    split
    · exact le_trans (ih _ _) (Nat.le_succ _)
    · simp

theorem numLoop_input_le (hd : Bool) (inp : List Char) (l c : Nat) :
    (numLoop hd inp l c).2.input.length ≤ inp.length := by
  induction inp generalizing hd l c with
  | nil => simp [numLoop]
  | cons ch rest ih =>
    simp only [numLoop]
    split
    · split
      · simp
      · exact le_trans (ih _ _ _) (Nat.le_succ _)
    · simp

theorem digitsLoop_input_le (inp : List Char) (l c : Nat) :
    (digitsLoop inp l c).2.input.length ≤ inp.length := by
  induction inp generalizing l c with
  | nil => simp [digitsLoop]
  | cons ch rest ih =>
    simp only [digitsLoop]
    split
    · exact le_trans (ih _ _) (Nat.le_succ _)
    · simp

theorem strLoop_input_le_aux (q : Char) :
    ∀ (n : Nat) (inp : List Char) (l c : Nat), inp.length ≤ n →
      (strLoop q inp l c).2.input.length ≤ inp.length := by
  intro n
  induction n with
  | zero =>
    intro inp l c h
    have : inp = [] := List.length_eq_zero.mp (Nat.le_zero.mp h)
    subst this
    simp [strLoop]
  | succ n ih =>
    intro inp l c h
    cases inp with
    | nil => simp [strLoop]
    | cons ch rest =>
      rw [strLoop.eq_def]
      by_cases h1 : ch = q
      · subst h1
        simp
      · by_cases h2 : ch = bslashC
        · subst h2
          cases rest with
          | nil => simp [h1]
          | cons d rest2 =>
            simp only [h1, if_neg, not_false_iff, if_pos, List.length_cons]
            refine le_trans (ih rest2 _ _ ?_) ?_
            · simp only [List.length_cons] at h
              omega
            · omega
        · simp only [h1, h2, if_neg, not_false_iff, List.length_cons]
          refine le_trans (ih rest _ _ ?_) ?_
          · simp only [List.length_cons] at h
            omega
          · omega

theorem strLoop_input_le (q : Char) (inp : List Char) (l c : Nat) :
    (strLoop q inp l c).2.input.length ≤ inp.length :=
  strLoop_input_le_aux q inp.length inp l c le_rfl

theorem readIdentifier_snd (s : LexState) :
    (readIdentifier s).2 = (identLoop s.input s.line s.column).2 := by
  simp only [readIdentifier]
  split
  · rfl
  · split
    · rfl
    · split
      · rfl
      · rfl

theorem isIdentStart_isIdentChar (ch : Char) (h : isIdentStart ch = true) :
    isIdentChar ch = true := by
  simp [isIdentChar, h]

theorem readIdentifier_progress (ch : Char) (rest : List Char) (l c : Nat)
    (h : isIdentChar ch = true) :
    (readIdentifier ⟨ch :: rest, l, c⟩).2.input.length ≤ rest.length := by
  rw [readIdentifier_snd]
  simp only [identLoop, h, if_true]
  exact identLoop_input_le rest _ _

theorem readNumber_snd_le (s : LexState) :
    (readNumber s).2.input.length ≤
      (numLoop false s.input s.line s.column).2.input.length := by
  simp only [readNumber.eq_def]
  split
  · split
    · split
      · split
        · refine le_trans (digitsLoop_input_le _ _ _) ?_
          simp_all
          all_goals omega
        · refine le_trans (digitsLoop_input_le _ _ _) ?_
          simp_all
      · simp_all
    · simp
  · simp

theorem numLoop_digit_step (ch : Char) (rest : List Char) (l c : Nat)
    (h : isDigitC ch = true) (hdot : ¬(ch = '.')) :
    numLoop false (ch :: rest) l c =
      (ch :: (numLoop false rest (advLC ch l c).1 (advLC ch l c).2).1,
        (numLoop false rest (advLC ch l c).1 (advLC ch l c).2).2) := by
  rw [numLoop.eq_def]
  simp [h, hdot]

theorem readNumber_progress (ch : Char) (rest : List Char) (l c : Nat)
    (h : isDigitC ch = true) :
    (readNumber ⟨ch :: rest, l, c⟩).2.input.length ≤ rest.length := by
  have hdot : ¬(ch = '.') := by
    intro hc
    subst hc
    simp [isDigitC] at h
  refine le_trans (readNumber_snd_le _) ?_
  rw [numLoop_digit_step ch rest l c h hdot]
  exact numLoop_input_le false rest _ _

theorem readString_progress (q ch : Char) (rest : List Char) (l c : Nat) :
    (readString q ⟨ch :: rest, l, c⟩).2.input.length ≤ rest.length := by
  simp only [readString, advance]
  split
  · exact le_trans (advance_input_le _) (strLoop_input_le _ _ _ _)
  · exact strLoop_input_le _ _ _ _

theorem slcLoop_input_le (inp : List Char) (l c : Nat) :
    (slcLoop inp l c).2.input.length ≤ inp.length := by
  induction inp generalizing l c with
  | nil => simp [slcLoop]
  | cons ch rest ih =>
    simp only [slcLoop]
    split
    · simp
    · exact le_trans (ih _ _) (Nat.le_succ _)

theorem mlcLoop_input_le (inp : List Char) (l c : Nat) :
    (mlcLoop inp l c).2.input.length ≤ inp.length := by
  induction inp generalizing l c with
  | nil => simp [mlcLoop]
  | cons ch rest ih =>
    simp only [mlcLoop]
    split
    · exact le_trans (advance_input_le _) (le_trans (advance_input_le _) (by simp))
    · exact le_trans (ih _ _) (Nat.le_succ _)

theorem readSingleLineComment_progress (ch : Char) (rest : List Char) (l c : Nat) :
    (readSingleLineComment ⟨ch :: rest, l, c⟩).2.input.length ≤ rest.length := by
  simp only [readSingleLineComment]
  refine le_trans (slcLoop_input_le _ _ _) ?_
  refine le_trans (advance_input_le _) ?_
  simp [advance]

theorem readMultiLineComment_progress (ch : Char) (rest : List Char) (l c : Nat) :
    (readMultiLineComment ⟨ch :: rest, l, c⟩).2.input.length ≤ rest.length := by
  simp only [readMultiLineComment]
  refine le_trans (mlcLoop_input_le _ _ _) ?_
  refine le_trans (advance_input_le _) ?_
  simp [advance]

theorem readOperator_progress (ch : Char) (rest : List Char) (l c : Nat) :
    (readOperator ⟨ch :: rest, l, c⟩).2.input.length ≤ rest.length := by
  have hadv : (advance ⟨ch :: rest, l, c⟩).input.length = rest.length := by
    simp [advance]
  simp only [readOperator]
  split
  · refine le_trans (advance_input_le _) (le_trans (advance_input_le _) ?_)
    omega
  · split
    · refine le_trans (advance_input_le _) ?_
      omega
    · split
      · simp [advance]
      · simp [advance]

/-- A helper for value facts about association-list lookups. -/
theorem lookup_mem_values {α β : Type} [BEq α] :
    ∀ (l : List (α × β)) (k : α) (b : β), l.lookup k = some b → b ∈ l.map Prod.snd := by
  intro l
  induction l with
  | nil => intro k b h; simp [List.lookup] at h
  | cons p rest ih =>
    intro k b h
    rw [List.lookup] at h
    split at h
    · simp at h
      simp [h]
    · simpa using Or.inr (ih k b h)

theorem readOperator_ne_eof (s : LexState) : (readOperator s).1.type ≠ .EOF := by
  simp only [readOperator]
  split
  · simp
  · split
    · simp
    · split
      · next ty heq =>
        have hm := lookup_mem_values _ _ _ heq
        simp only [twoCharOps] at hm
        intro hEq
        subst hEq
        simp at hm
      · split
        · next ty heq =>
          have hm := lookup_mem_values _ _ _ heq
          simp only [singleCharOps] at hm
          intro hEq
          subst hEq
          simp at hm
        · simp

theorem punctuation_ne_eof (ch : Char) (ty : TokenType) (h : punctuation ch = some ty) :
    ty ≠ .EOF := by
  intro hEq
  subst hEq
  simp only [punctuation] at h
  repeat' split at h
  all_goals simp_all

theorem readIdentifier_ne_eof (s : LexState) : (readIdentifier s).1.type ≠ .EOF := by
  simp only [readIdentifier]
  split
  · simp
  · split
    · simp
    · split
      · simp
      · split <;> simp

/-- The dispatch of nextToken on a non-whitespace character: it never
produces an EOF token and always consumes at least the character under the
cursor. -/
theorem scanToken_spec (ch : Char) (rest : List Char) (l c : Nat) :
    (scanToken ch rest l c).1.type ≠ .EOF ∧
      (scanToken ch rest l c).2.input.length ≤ rest.length := by
  simp only [scanToken]
  split
  · constructor
    · simp
    · simp [advance]
  · split
    · next h1 h2 =>
      constructor
      · simp only [readSingleLineComment]
        simp
      · exact readSingleLineComment_progress ch rest l c
    · split
      · constructor
        · simp only [readMultiLineComment]
          simp
        · exact readMultiLineComment_progress ch rest l c
      · split
        · constructor
          · simp only [readString]
            simp
          · exact readString_progress _ ch rest l c
        · split
          · next hdig =>
            constructor
            · simp only [readNumber.eq_def]
              split <;> (try split) <;> (try split) <;> (try split) <;> simp
            · exact readNumber_progress ch rest l c hdig
          · split
            · next hid =>
              constructor
              · exact readIdentifier_ne_eof _
              · exact readIdentifier_progress ch rest l c (isIdentStart_isIdentChar ch hid)
            · split
              · next ty heq =>
                constructor
                · exact punctuation_ne_eof ch ty heq
                · simp [advance]
              · split
                · constructor
                  · exact readOperator_ne_eof _
                  · exact readOperator_progress ch rest l c
                · constructor
                  · simp
                  · simp [advance]

/-- Emitting a non-EOF token consumes at least one input character. -/
theorem nextToken_progress (s : LexState) :
    (nextToken s).1.type ≠ .EOF → (nextToken s).2.input.length < s.input.length := by
  rw [nextToken.eq_def]
  split
  · intro h
    simp at h
  · next ch rest heq =>
    split
    · next hcond =>
      dsimp only
      split
      · intro h
        simp at h
      · next ch1 rest1 heq1 =>
        intro _
        refine lt_of_le_of_lt (scanToken_spec ch1 rest1 _ _).2 ?_
        have hg : (isJsSpace ch && !(ch = '\n')) = true := by
          simp only [Bool.or_eq_true, decide_eq_true_eq] at hcond
          rcases hcond with (h' | h') | h' <;> subst h' <;> decide
        have hstep : skipWs s.input s.line s.column =
            skipWs rest (advLC ch s.line s.column).1 (advLC ch s.line s.column).2 := by
          rw [heq]
          simp [skipWs, hg]
        have hle : (skipWs s.input s.line s.column).input.length ≤ rest.length := by
          rw [hstep]
          exact skipWs_input_le _ _ _
        rw [heq1] at hle
        rw [heq]
        simp only [List.length_cons] at hle ⊢
        omega
    · intro _
      refine lt_of_le_of_lt (scanToken_spec ch rest _ _).2 ?_
      rw [heq]
      simp

/-- A step budget exceeding the remaining input length never runs out. -/
theorem tokenizeAux_isSome :
    ∀ (fuel : Nat) (s : LexState), s.input.length < fuel →
      (tokenizeAux fuel s).isSome := by
  intro fuel
  induction fuel with
  | zero =>
    intro s h
    omega
  | succ n ih =>
    intro s h
    simp only [tokenizeAux]
    split
    · simp
    · next hne =>
      have hlt := nextToken_progress s hne
      have hrec := ih (nextToken s).2 (by omega)
      cases htok : tokenizeAux n (nextToken s).2 with
      | none =>
        rw [htok] at hrec
        simp at hrec
      | some ts =>
        simp

/-- Every completed scan is nonempty, ends in an EOF token, and contains
exactly one EOF token. -/
theorem tokenizeAux_shape :
    ∀ (fuel : Nat) (s : LexState) (ts : List Token), tokenizeAux fuel s = some ts →
      ts ≠ [] ∧ (∃ t, ts.getLast? = some t ∧ t.type = .EOF) ∧
        ts.countP (fun t => decide (t.type = .EOF)) = 1 := by
  intro fuel
  induction fuel with
  | zero =>
    intro s ts h
    simp [tokenizeAux] at h
  | succ n ih =>
    intro s ts h
    simp only [tokenizeAux] at h
    split at h
    · next heof =>
      simp at h
      subst h
      refine ⟨by simp, ⟨(nextToken s).1, by simp, heof⟩, ?_⟩
      simp [List.countP_cons, heof]
    · next hne =>
      cases hrec : tokenizeAux n (nextToken s).2 with
      | none =>
        rw [hrec] at h
        simp at h
      | some ts' =>
        rw [hrec] at h
        simp at h
        subst h
        obtain ⟨hne', ⟨t, hlast, heof⟩, hcount⟩ := ih _ _ hrec
        refine ⟨by simp, ⟨t, ?_, heof⟩, ?_⟩
        · cases ts' with
          | nil => exact absurd rfl hne'
          | cons a as => simpa [List.getLast?_cons_cons] using hlast
        · simp [List.countP_cons, hne, hcount]

/-! ## Claims -/

/-- Claim C1: for every input string — including the empty string, binary
garbage and whitespace — tokenize terminates without error (the scan budget
never runs out), returns a nonempty token sequence whose last element is an
EOF token, with exactly one EOF token in the sequence; unrecognized
characters become UNKNOWN tokens and scanning continues, as the concrete
conjunct shows. -/
theorem c1_tokenize_total :
    (∀ src : List Char,
      (tokenizeAux (src.length + 1) ⟨src, 1, 1⟩).isSome ∧
      tokenize src ≠ [] ∧
      (∃ t, (tokenize src).getLast? = some t ∧ t.type = .EOF) ∧
      (tokenize src).countP (fun t => decide (t.type = .EOF)) = 1) ∧
    tokenize (("@#").toList) =
      [⟨.UNKNOWN, ("@"), 1, 1⟩, ⟨.UNKNOWN, ("#"), 1, 2⟩, ⟨.EOF, (""), 1, 3⟩] := by
  constructor
  · intro src
    have hs : (tokenizeAux (src.length + 1) ⟨src, 1, 1⟩).isSome :=
      tokenizeAux_isSome _ _ (Nat.lt_succ_self _)
    obtain ⟨ts, hts⟩ := Option.isSome_iff_exists.mp hs
    have hshape := tokenizeAux_shape _ _ _ hts
    have htok : tokenize src = ts := by
      simp [tokenize, hts]
    refine ⟨hs, ?_, ?_, ?_⟩ <;> rw [htok]
    · exact hshape.1
    · exact hshape.2.1
    · exact hshape.2.2
  · decide

/-- Claim C3, counterexample: the claim says any reserved word outside the
nine-word set, such as class, lexes as a plain Identifier; the scanner
classifies class as a KEYWORD token, not an IDENTIFIER token. -/
theorem c3_counterexample :
    tokenize (("class").toList) =
      [⟨.KEYWORD, ("class"), 1, 1⟩, ⟨.EOF, (""), 1, 6⟩] ∧
    tokenize (("switch").toList) =
      [⟨.KEYWORD, ("switch"), 1, 1⟩, ⟨.EOF, (""), 1, 7⟩] ∧
    TokenType.KEYWORD ≠ TokenType.IDENTIFIER := by
  decide

/-- Claim C3 as amended: for every identifier-shaped lexeme the scanner
classifies, the kind is BOOLEAN exactly for true and false, NULL exactly for
null, UNDEFINED exactly for undefined (a kind the claim does not mention),
KEYWORD exactly when the text is in the full 37-entry KEYWORDS table (which
contains class, switch, and the other reserved words), and IDENTIFIER
otherwise. -/
theorem c3_keyword_classification (s : LexState) :
    ((readIdentifier s).1.type = .BOOLEAN ↔
      ((readIdentifier s).1.value = ("true") ∨ (readIdentifier s).1.value = ("false"))) ∧
    ((readIdentifier s).1.type = .NULL ↔ (readIdentifier s).1.value = ("null")) ∧
    ((readIdentifier s).1.type = .UNDEFINED ↔
      (readIdentifier s).1.value = ("undefined")) ∧
    ((readIdentifier s).1.type = .KEYWORD ↔
      KEYWORDS.contains (readIdentifier s).1.value = true) ∧
    ((readIdentifier s).1.type = .IDENTIFIER ↔
      (KEYWORDS.contains (readIdentifier s).1.value = false ∧
        (readIdentifier s).1.value ≠ ("true") ∧ (readIdentifier s).1.value ≠ ("false") ∧
        (readIdentifier s).1.value ≠ ("null") ∧
        (readIdentifier s).1.value ≠ ("undefined"))) := by
  simp only [readIdentifier]
  generalize String.mk (identLoop s.input s.line s.column).1 = v
  by_cases h1 : v = ("true")
  · subst h1
    simp
    decide
  · by_cases h2 : v = ("false")
    · subst h2
      simp
      decide
    · by_cases h3 : v = ("null")
      · subst h3
        simp [h1, h2]
        decide
      · by_cases h4 : v = ("undefined")
        · subst h4
          simp [h1, h2, h3]
          decide
        · by_cases hk : v ∈ KEYWORDS
          · simp [h1, h2, h3, h4, hk]
          · simp [h1, h2, h3, h4, hk]

/-- Claim C6, counterexample: the claim says the backslash is not stored and
only the escaped character is appended; scanning the four-character source
consisting of a double quote, a backslash, the letter n, and a double quote
stores both the backslash and the n, a two-character value different from
the claimed one-character value. -/
theorem c6_counterexample :
    tokenize [dquoteC, bslashC, 'n', dquoteC] =
      [⟨.STRING, String.mk [bslashC, 'n'], 1, 1⟩, ⟨.EOF, (""), 1, 5⟩] ∧
    String.mk [bslashC, 'n'] ≠ String.mk ['n'] := by
  decide

/-- Claim C6 as amended: a backslash escapes the following character
verbatim, appending the backslash together with that character (no escape
interpretation), and a string left unterminated at end of input still
yields a STRING token with the remaining text. -/
theorem c6_escape_verbatim :
    (∀ (q d : Char) (cs : List Char) (l c : Nat), q ≠ bslashC →
      strLoop q (bslashC :: d :: cs) l c =
        (bslashC :: d :: (strLoop q cs (advLC d l (c + 1)).1 (advLC d l (c + 1)).2).1,
          (strLoop q cs (advLC d l (c + 1)).1 (advLC d l (c + 1)).2).2)) ∧
    tokenize [dquoteC, 'a', 'b'] = [⟨.STRING, ("ab"), 1, 1⟩, ⟨.EOF, (""), 1, 4⟩] := by
  constructor
  · intro q d cs l c hq
    have hbq : ¬(bslashC = q) := fun h => hq h.symm
    have hbn : ¬(bslashC = '\n') := by decide
    rw [strLoop.eq_def]
    simp [hbq, advLC, hbn]
  · decide

/-- Witness for the amended C6 escape property, at the double quote, the
character n and an otherwise empty string body. -/
theorem c6_escape_verbatim_witness :
    strLoop dquoteC [bslashC, 'n'] 1 2 = ([bslashC, 'n'], ⟨[], 1, 4⟩) := by
  have h := c6_escape_verbatim.1 dquoteC 'n' [] 1 2 (by decide)
  rw [h]
  decide

/-- Claim C7: lexing the three-character equality spelling yields one
COMPARISON token spelling it whole, never a two-character comparison
followed by an assignment; the scanner prefers the three-character over the
two-character over the one-character reading whatever follows, as the
universally quantified conjuncts state for arbitrary suffixes. -/
theorem c7_maximal_munch :
    tokenize (("===").toList) = [⟨.COMPARISON, ("==="), 1, 1⟩, ⟨.EOF, (""), 1, 4⟩] ∧
    tokenize (("====").toList) =
      [⟨.COMPARISON, ("==="), 1, 1⟩, ⟨.ASSIGNMENT, ("="), 1, 4⟩, ⟨.EOF, (""), 1, 5⟩] ∧
    (∀ (cs : List Char) (l c : Nat),
      (readOperator ⟨'=' :: '=' :: '=' :: cs, l, c⟩).1 = ⟨.COMPARISON, ("==="), l, c⟩) ∧
    (∀ (cs : List Char) (l c : Nat),
      (readOperator ⟨'=' :: '=' :: ';' :: cs, l, c⟩).1 = ⟨.COMPARISON, ("=="), l, c⟩) ∧
    (∀ (cs : List Char) (l c : Nat),
      (readOperator ⟨'=' :: ';' :: cs, l, c⟩).1 = ⟨.ASSIGNMENT, ("="), l, c⟩) := by
  refine ⟨by decide, by decide, ?_, ?_, ?_⟩
  · intro cs l c
    rfl
  · intro cs l c
    rfl
  · intro cs l c
    rfl

/-- Claim C5, counterexample: the claim says parsing this source records
exactly one parser error; the parse completes with an empty error list —
the failure inside the first declaration is thrown by
parsePrimaryExpression, which records nothing, and consume is never the
failing step here. -/
theorem c5_counterexample :
    parseErrors srcRecovery = some [] ∧
    (parseErrors srcRecovery).map List.length ≠ some 1 := by
  decide

/-- Claim C5 as amended: parsing the recovery source terminates, records no
parser error message (only consume records diagnostics, and this failure
path throws from parsePrimaryExpression), drops the first declaration, and
still produces a VariableDeclaration binding y. -/
theorem c5_recovery_keeps_second_declaration :
    parseErrors srcRecovery = some [] ∧
    topDeclInfo srcRecovery = some [(("let"), [("y")])] := by
  decide

/-- Claim C2: the spec says document.write calls produce one security issue
of high severity; the code's pattern demands a three-level member chain, so
the two-level call produces no issue at all, the unrelated receiver
produces none, and only the three-level chain fires the rule. -/
theorem c2_document_write_rule :
    analyzeCode srcDocWrite = [] ∧
    (analyzeCode srcFooWrite).filter
      (fun i => i.type == ("security") && i.severity == ("high")) = [] ∧
    ((analyzeCode srcDocBodyWrite).filter
      (fun i => i.type == ("security") && i.severity == ("high"))).length = 1 := by
  decide

/-- Claim C8: the pipeline is pure — tokenizing, parsing and analyzing the
same source twice yields identical results, index for index. -/
theorem c8_analysis_deterministic (src : List Char) :
    analyzeCode src = analyzeCode src ∧
    (analyzeCode src).length = (analyzeCode src).length ∧
    (∀ k : Nat, (analyzeCode src).get? k = (analyzeCode src).get? k) ∧
    tokenize src = tokenize src ∧
    parseJS src = parseJS src :=
  ⟨rfl, rfl, fun _ => rfl, rfl, rfl⟩

/-! ## Analyzer rule inventories, for the summary and dead-rule claims -/

theorem sdata_append (a b : String) : (a ++ b).data = a.data ++ b.data := rfl

/-- Strings agreeing with different four-character prefixes differ. -/
theorem msg_ne_helper (s t P : String) (rest : List Char) (hs : s.data = P.data ++ rest)
    (h4 : 4 ≤ P.data.length) (hne : P.data.take 4 ≠ t.data.take 4) : s ≠ t := by
  intro he
  apply hne
  calc P.data.take 4 = (P.data ++ rest).take 4 := (List.take_append_of_le_length h4).symm
    _ = s.data.take 4 := by rw [hs]
    _ = t.data.take 4 := by rw [he]

theorem dpre1 (P a : String) : ∃ r, (P ++ a).data = P.data ++ r := ⟨a.data, rfl⟩

theorem dpre2 (P a b : String) : ∃ r, (P ++ a ++ b).data = P.data ++ r :=
  ⟨a.data ++ b.data, by simp [sdata_append]⟩

theorem dpre4 (P a b c d : String) : ∃ r, (P ++ a ++ b ++ c ++ d).data = P.data ++ r :=
  ⟨a.data ++ b.data ++ c.data ++ d.data, by simp [sdata_append]⟩

theorem ruleImplicitGlobal_spec (n : Node) (i : Issue) (h : i ∈ ruleImplicitGlobal n) :
    i.type = ("error") ∧ i.severity = ("high") ∧
      ∃ rest, i.message.data = ("Potential implicit global variable: ").data ++ rest := by
  unfold ruleImplicitGlobal at h
  split at h
  · simp at h
    subst h
    exact ⟨rfl, rfl, dpre1 _ _⟩
  · simp at h

theorem ruleEquality_spec (n : Node) (i : Issue) (h : i ∈ ruleEquality n) :
    i.type = ("error") ∧ i.severity = ("medium") ∧
      ∃ rest, i.message.data = ("Unsafe equality comparison using ").data ++ rest := by
  unfold ruleEquality at h
  split at h
  · split at h
    · simp at h
      subst h
      exact ⟨rfl, rfl, dpre4 _ _ _ _ _⟩
    · simp at h
  · simp at h

theorem ruleXss_spec (n : Node) (i : Issue) (h : i ∈ ruleXss n) :
    i.type = ("security") ∧ i.severity = ("high") ∧
      ∃ rest, i.message.data = ("Potential XSS vulnerability using ").data ++ rest := by
  unfold ruleXss at h
  split at h
  · split at h
    · simp at h
      subst h
      exact ⟨rfl, rfl, dpre1 _ _⟩
    · simp at h
  · simp at h

theorem ruleDangerousCall_spec (n : Node) (i : Issue) (h : i ∈ ruleDangerousCall n) :
    i.type = ("security") ∧ i.severity = ("high") ∧
      ∃ rest, i.message.data = ("Unsafe use of ").data ++ rest := by
  unfold ruleDangerousCall at h
  split at h
  · rcases List.mem_append.mp h with h' | h'
    · split at h'
      · simp at h'
        subst h'
        exact ⟨rfl, rfl, dpre2 _ _ _⟩
      · simp at h'
    · split at h'
      · simp at h'
        subst h'
        exact ⟨rfl, rfl, dpre2 _ _ _⟩
      · simp at h'
  · simp at h

theorem ruleDocumentWrite_spec (n : Node) (i : Issue) (h : i ∈ ruleDocumentWrite n) :
    i.type = ("security") ∧ i.severity = ("high") ∧
      ∃ rest, i.message.data = ("Insecure use of document.").data ++ rest := by
  unfold ruleDocumentWrite at h
  split at h
  · split at h
    · simp at h
      subst h
      exact ⟨rfl, rfl, dpre2 _ _ _⟩
    · simp at h
  · simp at h

theorem ruleHttp_spec (n : Node) (i : Issue) (h : i ∈ ruleHttp n) :
    i.type = ("security") ∧ i.severity = ("medium") ∧
      ∃ rest, i.message.data = ("Using insecure HTTP protocol instead of HTTPS").data ++ rest := by
  unfold ruleHttp at h
  split at h
  · split at h
    · simp at h
      subst h
      refine ⟨rfl, rfl, [], ?_⟩
      simp
    · simp at h
  · simp at h

theorem ruleVar_spec (n : Node) (i : Issue) (h : i ∈ ruleVar n) :
    i.type = ("style") ∧ i.severity = ("medium") ∧
      ∃ rest, i.message.data =
        ("Use of 'var' keyword - consider using 'let' or 'const' instead for better scoping").data ++
          rest := by
  unfold ruleVar at h
  split at h
  · split at h
    · simp at h
      subst h
      exact ⟨rfl, rfl, [], by simp⟩
    · simp at h
  · simp at h

theorem ruleComplexity_spec (fuel : Nat) (n : Node) (i : Issue)
    (h : i ∈ ruleComplexity fuel n) :
    i.type = ("complexity") ∧ i.severity = ("medium") ∧
      ∃ rest, i.message.data = ("Function is too large (").data ++ rest := by
  unfold ruleComplexity at h
  split at h
  · split at h
    · dsimp only at h
      split at h
      · simp at h
        subst h
        exact ⟨rfl, rfl, dpre2 _ _ _⟩
      · simp at h
    · simp at h
  · simp at h

theorem ruleConcat_spec (p : Option NType) (n : Node) (i : Issue) (h : i ∈ ruleConcat p n) :
    i.type = ("performance") ∧ i.severity = ("medium") := by
  unfold ruleConcat at h
  split at h
  · split at h
    · simp at h
      subst h
      exact ⟨rfl, rfl⟩
    · simp at h
  · simp at h

theorem ruleUnused_spec (fuel : Nat) (ast : Node) (n : Node) (i : Issue)
    (h : i ∈ ruleUnused fuel ast n) :
    i.type = ("performance") ∧ i.severity = ("low") ∧
      ∃ rest, i.message.data = ("Unused variable: ").data ++ rest := by
  unfold ruleUnused at h
  split at h
  · split at h
    · simp at h
      subst h
      exact ⟨rfl, rfl, dpre1 _ _⟩
    · simp at h
  · simp at h

/-- No node carries the while or for tag: the parser has no class producing
them, and neither does any other node builder. -/
theorem ntype_not_loop (n : Node) :
    n.ntype ≠ .whileStatement ∧ n.ntype ≠ .forStatement := by
  cases n <;> simp [Node.ntype]

/-- With a parent that is an actual node (or no parent at all), the
in-loop test of the concatenation rule is false, so the rule emits
nothing. -/
theorem ruleConcat_parent_nil (n : Node) (p : Option NType)
    (hp : p = none ∨ ∃ m : Node, p = some m.ntype) : ruleConcat p n = [] := by
  have hloop : isInsideLoop p = false := by
    rcases hp with rfl | ⟨m, rfl⟩
    · rfl
    · simp [isInsideLoop, (ntype_not_loop m).1, (ntype_not_loop m).2]
  unfold ruleConcat
  split
  · simp [hloop]
  · rfl

theorem nodeIssues_type_severity (fuel : Nat) (ast : Node) (p : Option NType) (n : Node)
    (i : Issue) (h : i ∈ nodeIssues fuel ast p n) :
    (i.type = ("security") ∨ i.type = ("performance") ∨ i.type = ("style") ∨
      i.type = ("complexity") ∨ i.type = ("error")) ∧
    (i.severity = ("high") ∨ i.severity = ("medium") ∨ i.severity = ("low")) := by
  simp only [nodeIssues, List.mem_append] at h
  rcases h with ((((((((h | h) | h) | h) | h) | h) | h) | h) | h) | h
  · exact ⟨Or.inr (Or.inr (Or.inr (Or.inr (ruleImplicitGlobal_spec n i h).1))),
      Or.inl (ruleImplicitGlobal_spec n i h).2.1⟩
  · exact ⟨Or.inr (Or.inr (Or.inr (Or.inr (ruleEquality_spec n i h).1))),
      Or.inr (Or.inl (ruleEquality_spec n i h).2.1)⟩
  · exact ⟨Or.inl (ruleXss_spec n i h).1, Or.inl (ruleXss_spec n i h).2.1⟩
  · exact ⟨Or.inl (ruleDangerousCall_spec n i h).1,
      Or.inl (ruleDangerousCall_spec n i h).2.1⟩
  · exact ⟨Or.inl (ruleDocumentWrite_spec n i h).1,
      Or.inl (ruleDocumentWrite_spec n i h).2.1⟩
  · exact ⟨Or.inl (ruleHttp_spec n i h).1, Or.inr (Or.inl (ruleHttp_spec n i h).2.1)⟩
  · exact ⟨Or.inr (Or.inr (Or.inl (ruleVar_spec n i h).1)),
      Or.inr (Or.inl (ruleVar_spec n i h).2.1)⟩
  · exact ⟨Or.inr (Or.inr (Or.inr (Or.inl (ruleComplexity_spec fuel n i h).1))),
      Or.inr (Or.inl (ruleComplexity_spec fuel n i h).2.1)⟩
  · exact ⟨Or.inr (Or.inl (ruleConcat_spec p n i h).1),
      Or.inr (Or.inl (ruleConcat_spec p n i h).2)⟩
  · exact ⟨Or.inr (Or.inl (ruleUnused_spec fuel ast n i h).1),
      Or.inr (Or.inr (ruleUnused_spec fuel ast n i h).2.1)⟩

theorem nodeIssues_concat_free (fuel : Nat) (ast : Node) (p : Option NType) (n : Node)
    (i : Issue) (hp : p = none ∨ ∃ m : Node, p = some m.ntype)
    (h : i ∈ nodeIssues fuel ast p n) :
    i.message ≠
      ("Inefficient string concatenation in loop - consider using array.join() instead") := by
  simp only [nodeIssues, List.mem_append] at h
  rcases h with ((((((((h | h) | h) | h) | h) | h) | h) | h) | h) | h
  · obtain ⟨rest, hr⟩ := (ruleImplicitGlobal_spec n i h).2.2
    exact msg_ne_helper _ _ _ rest hr (by decide) (by decide)
  · obtain ⟨rest, hr⟩ := (ruleEquality_spec n i h).2.2
    exact msg_ne_helper _ _ _ rest hr (by decide) (by decide)
  · obtain ⟨rest, hr⟩ := (ruleXss_spec n i h).2.2
    exact msg_ne_helper _ _ _ rest hr (by decide) (by decide)
  · obtain ⟨rest, hr⟩ := (ruleDangerousCall_spec n i h).2.2
    exact msg_ne_helper _ _ _ rest hr (by decide) (by decide)
  · obtain ⟨rest, hr⟩ := (ruleDocumentWrite_spec n i h).2.2
    exact msg_ne_helper _ _ _ rest hr (by decide) (by decide)
  · obtain ⟨rest, hr⟩ := (ruleHttp_spec n i h).2.2
    exact msg_ne_helper _ _ _ rest hr (by decide) (by decide)
  · obtain ⟨rest, hr⟩ := (ruleVar_spec n i h).2.2
    exact msg_ne_helper _ _ _ rest hr (by decide) (by decide)
  · obtain ⟨rest, hr⟩ := (ruleComplexity_spec fuel n i h).2.2
    exact msg_ne_helper _ _ _ rest hr (by decide) (by decide)
  · rw [ruleConcat_parent_nil n p hp] at h
    simp at h
  · obtain ⟨rest, hr⟩ := (ruleUnused_spec fuel ast n i h).2.2
    exact msg_ne_helper _ _ _ rest hr (by decide) (by decide)

theorem walkF_type_severity :
    ∀ (fuel : Nat) (ast : Node) (p : Option NType) (n : Node) (i : Issue),
      i ∈ walkF ast fuel p n →
      (i.type = ("security") ∨ i.type = ("performance") ∨ i.type = ("style") ∨
        i.type = ("complexity") ∨ i.type = ("error")) ∧
      (i.severity = ("high") ∨ i.severity = ("medium") ∨ i.severity = ("low")) := by
  intro fuel
  induction fuel with
  | zero =>
    intro ast p n i hi
    simp [walkF] at hi
  | succ m ih =>
    intro ast p n i hi
    simp only [walkF] at hi
    rcases List.mem_append.mp hi with hmem | hmem
    · exact nodeIssues_type_severity m ast p n i hmem
    · rcases List.mem_flatMap.mp hmem with ⟨child, _, hin⟩
      exact ih ast (some n.ntype) child i hin

theorem walkF_concat_free :
    ∀ (fuel : Nat) (ast : Node) (p : Option NType) (n : Node) (i : Issue),
      (p = none ∨ ∃ m : Node, p = some m.ntype) → i ∈ walkF ast fuel p n →
      i.message ≠
        ("Inefficient string concatenation in loop - consider using array.join() instead") := by
  intro fuel
  induction fuel with
  | zero =>
    intro ast p n i hp hi
    simp [walkF] at hi
  | succ m ih =>
    intro ast p n i hp hi
    simp only [walkF] at hi
    rcases List.mem_append.mp hi with hmem | hmem
    · exact nodeIssues_concat_free m ast p n i hp hmem
    · rcases List.mem_flatMap.mp hmem with ⟨child, _, hin⟩
      exact ih ast (some n.ntype) child i (Or.inr ⟨n, rfl⟩) hin

theorem analyzeCode_type_severity (src : List Char) (i : Issue)
    (hi : i ∈ analyzeCode src) :
    (i.type = ("security") ∨ i.type = ("performance") ∨ i.type = ("style") ∨
      i.type = ("complexity") ∨ i.type = ("error")) ∧
    (i.severity = ("high") ∨ i.severity = ("medium") ∨ i.severity = ("low")) := by
  unfold analyzeCode at hi
  split at hi
  · exact walkF_type_severity _ _ _ _ _ hi
  · simp at hi
  · simp at hi

/-- Partition counting: when every element's severity is one of the three
values, the filters by the three values exhaust the list. -/
theorem length_eq_severity_filters (issues : List Issue)
    (h : ∀ i ∈ issues,
      i.severity = ("high") ∨ i.severity = ("medium") ∨ i.severity = ("low")) :
    issues.length =
      (issues.filter fun i => i.severity = ("high")).length +
      (issues.filter fun i => i.severity = ("medium")).length +
      (issues.filter fun i => i.severity = ("low")).length := by
  induction issues with
  | nil => simp
  | cons a l ih =>
    have ha := h a (by simp)
    have hl : ∀ i ∈ l,
        i.severity = ("high") ∨ i.severity = ("medium") ∨ i.severity = ("low") :=
      fun i hi => h i (List.mem_cons_of_mem _ hi)
    rcases ha with h' | h' | h' <;>
      simp [List.filter_cons, h', ih hl] <;> omega

/-- Partition counting over the five categories. -/
theorem length_eq_type_filters (issues : List Issue)
    (h : ∀ i ∈ issues,
      i.type = ("security") ∨ i.type = ("performance") ∨ i.type = ("style") ∨
        i.type = ("complexity") ∨ i.type = ("error")) :
    issues.length =
      (issues.filter fun i => i.type = ("security")).length +
      (issues.filter fun i => i.type = ("performance")).length +
      (issues.filter fun i => i.type = ("style")).length +
      (issues.filter fun i => i.type = ("complexity")).length +
      (issues.filter fun i => i.type = ("error")).length := by
  induction issues with
  | nil => simp
  | cons a l ih =>
    have ha := h a (by simp)
    have hl : ∀ i ∈ l,
        i.type = ("security") ∨ i.type = ("performance") ∨ i.type = ("style") ∨
          i.type = ("complexity") ∨ i.type = ("error") :=
      fun i hi => h i (List.mem_cons_of_mem _ hi)
    rcases ha with h' | h' | h' | h' | h' <;>
      simp [List.filter_cons, h', ih hl] <;> omega

/-- Claim C4: the spec's in-loop string-concatenation rule is dead code —
the two loop inputs of the claim produce no performance issue, and no
analyzed source can ever produce the rule's message, because the parser
builds IfStatement and ExpressionStatement nodes for loops (never a
while- or for-tagged node) and the in-loop test consults only the
immediate parent through a nonexistent parent field. -/
theorem c4_concat_rule_never_fires :
    (analyzeCode srcWhileConcat).filter (fun i => i.type == ("performance")) = [] ∧
    (analyzeCode srcForConcat).filter (fun i => i.type == ("performance")) = [] ∧
    (∀ src : List Char,
      (analyzeCode src).filter
        (fun i => i.message ==
          ("Inefficient string concatenation in loop - consider using array.join() instead")) =
        []) := by
  refine ⟨by decide, by decide, ?_⟩
  intro src
  rw [List.filter_eq_nil_iff]
  intro i hi
  simp only [beq_iff_eq]
  unfold analyzeCode at hi
  split at hi
  · exact walkF_concat_free _ _ _ _ _ (Or.inl rfl) hi
  · simp at hi
  · simp at hi

/-- Claim C9: for every analyzer run, the summary's total is the issue
count, and it equals both the sum of the three severity counts and the sum
of the five category counts — every emitted issue carries one of the five
categories and one of the three severities. -/
theorem c9_summary_consistent (src : List Char) :
    (getAnalysisSummary (analyzeCode src)).total = (analyzeCode src).length ∧
    (getAnalysisSummary (analyzeCode src)).total =
      (getAnalysisSummary (analyzeCode src)).high +
      (getAnalysisSummary (analyzeCode src)).medium +
      (getAnalysisSummary (analyzeCode src)).low ∧
    (getAnalysisSummary (analyzeCode src)).total =
      (getAnalysisSummary (analyzeCode src)).security +
      (getAnalysisSummary (analyzeCode src)).performance +
      (getAnalysisSummary (analyzeCode src)).style +
      (getAnalysisSummary (analyzeCode src)).complexity +
      (getAnalysisSummary (analyzeCode src)).error := by
  refine ⟨rfl, ?_, ?_⟩
  · exact length_eq_severity_filters (analyzeCode src)
      (fun i hi => (analyzeCode_type_severity src i hi).2)
  · exact length_eq_type_filters (analyzeCode src)
      (fun i hi => (analyzeCode_type_severity src i hi).1)

/-- Claim C10: formatting the empty issue list yields the fixed sentence;
a nonempty list formats as one line per issue in order, joined by newlines;
and the line of an issue with nonzero coordinates is the severity in
uppercase brackets, the category, the message, and the position. -/
theorem c10_format_issues :
    formatIssues [] = ("No issues detected.") ∧
    (∀ issues : List Issue, issues ≠ [] →
      formatIssues issues = String.intercalate ("\n") (issues.map formatIssue)) ∧
    (∀ i : Issue, i.line ≠ 0 → i.column ≠ 0 →
      formatIssue i =
        ("[") ++ toUpperString i.severity ++ ("] ") ++ i.type ++ (": ") ++ i.message ++
          (" at line ") ++ toString i.line ++ (", column ") ++ toString i.column) := by
  refine ⟨rfl, ?_, ?_⟩
  · intro issues hne
    unfold formatIssues
    rw [if_neg]
    simpa using hne
  · intro i hl hc
    unfold formatIssue
    rw [if_pos (by simp [hl, hc])]
    apply String.ext
    simp [sdata_append, List.append_assoc]

/-- Witness for C10 at a singleton issue list and at an issue with nonzero
coordinates. -/
theorem c10_format_issues_witness :
    formatIssues [⟨("security"), ("high"), ("boom"), 2, 3⟩] =
      ("[HIGH] security: boom at line 2, column 3") ∧
    formatIssue ⟨("style"), ("low"), ("m"), 1, 9⟩ =
      ("[LOW] style: m at line 1, column 9") := by
  constructor
  · have h := c10_format_issues.2.1 [⟨("security"), ("high"), ("boom"), 2, 3⟩] (by simp)
    rw [h]
    decide
  · have h := c10_format_issues.2.2 ⟨("style"), ("low"), ("m"), 1, 9⟩ (by decide) (by decide)
    rw [h]
    decide

end JSGuard
